import Mathlib

/-!
Verification of the `douban_crawler` ETL key-resolution and identity-assignment
pipeline.  The Python ETL scripts (`etl/01` … `etl/11`, `2_build_person_seeds.py`)
are shallowly embedded below: each collector / builder becomes a pure Lean
function over explicit record types, Python `dict`s become association lists in
insertion order, Python string operations (`strip`, `lower`, string comparison,
`int(...)`) are modelled character-for-character on `List Char` (ASCII semantics
for case conversion and digit parsing, which covers every value produced by the
pipeline's own staging files).
-/

/-! ## Python string primitives -/

/-- Lexicographic code-point comparison of character lists: the semantics of
Python's `<` on `str` (a strict prefix compares smaller). -/
def charListLtB : List Char → List Char → Bool
  | [], [] => false
  | [], _ :: _ => true
  | _ :: _, [] => false
  | a :: as, b :: bs =>
    if a.toNat < b.toNat then true
    else if b.toNat < a.toNat then false
    else charListLtB as bs

/-- Python `a < b` on strings. -/
def pyStrLtB (a b : String) : Bool := charListLtB a.data b.data

/-- Python `a < b` on strings, as a proposition. -/
def pyStrLt (a b : String) : Prop := pyStrLtB a b = true

/-- Python `a <= b` on strings, as a proposition (the order used by `sorted`). -/
def pyStrLe (a b : String) : Prop := pyStrLtB b a = false

instance : DecidableRel pyStrLt := fun _ _ => inferInstanceAs (Decidable (_ = _))

instance : DecidableRel pyStrLe := fun _ _ => inferInstanceAs (Decidable (_ = _))

theorem charListLtB_trichotomy : ∀ a b : List Char,
    charListLtB a b = true ∨ a = b ∨ charListLtB b a = true
  | [], [] => Or.inr (Or.inl rfl)
  | [], _ :: _ => Or.inl rfl
  | _ :: _, [] => Or.inr (Or.inr rfl)
  | a :: as, b :: bs => by
    rcases Nat.lt_trichotomy a.toNat b.toNat with h | h | h
    · exact Or.inl (by simp [charListLtB, h])
    · have hab : a = b := Char.ext (UInt32.ext h)
      rcases charListLtB_trichotomy as bs with h' | h' | h'
      · exact Or.inl (by simp [charListLtB, h, hab, h'])
      · exact Or.inr (Or.inl (by rw [hab, h']))
      · exact Or.inr (Or.inr (by simp [charListLtB, hab, h']))
    · exact Or.inr (Or.inr (by simp [charListLtB, h]))

theorem charListLtB_irrefl : ∀ a : List Char, charListLtB a a = false
  | [] => rfl
  | a :: as => by simp [charListLtB, charListLtB_irrefl as]

theorem charListLtB_trans : ∀ {a b c : List Char},
    charListLtB a b = true → charListLtB b c = true → charListLtB a c = true := by
  intro a
  induction a with
  | nil =>
    intro b c hab hbc
    cases b <;> cases c <;> simp_all [charListLtB]
  | cons x xs ih =>
    intro b c hab hbc
    cases b with
    | nil => simp [charListLtB] at hab
    | cons y ys =>
      cases c with
      | nil => simp [charListLtB] at hbc
      | cons z zs =>
        simp only [charListLtB] at hab hbc ⊢
        split_ifs at hab hbc ⊢ <;>
          first
          | rfl
          | omega
          | exact ih hab hbc
          | simp_all

theorem pyStrLt_trichotomy (a b : String) : pyStrLt a b ∨ a = b ∨ pyStrLt b a := by
  rcases charListLtB_trichotomy a.data b.data with h | h | h
  · exact Or.inl h
  · refine Or.inr (Or.inl ?_)
    cases a; cases b; cases h; rfl
  · exact Or.inr (Or.inr h)

theorem pyStrLt_irrefl (a : String) : ¬ pyStrLt a a := by
  simp [pyStrLt, pyStrLtB, charListLtB_irrefl]

theorem pyStrLt_trans {a b c : String} (h₁ : pyStrLt a b) (h₂ : pyStrLt b c) :
    pyStrLt a c :=
  charListLtB_trans h₁ h₂

theorem pyStrLt_asymm {a b : String} (h : pyStrLt a b) : ¬ pyStrLt b a :=
  fun h' => pyStrLt_irrefl a (pyStrLt_trans h h')

theorem pyStrLe_iff {a b : String} : pyStrLe a b ↔ ¬ pyStrLt b a := by
  simp [pyStrLe, pyStrLt]

theorem pyStrLe_of_lt {a b : String} (h : pyStrLt a b) : pyStrLe a b :=
  pyStrLe_iff.2 (pyStrLt_asymm h)

theorem pyStrLt_of_le_of_ne {a b : String} (h : pyStrLe a b) (hne : a ≠ b) :
    pyStrLt a b := by
  rcases pyStrLt_trichotomy a b with h' | h' | h'
  · exact h'
  · exact absurd h' hne
  · exact absurd h' (pyStrLe_iff.1 h)

instance : IsTotal String pyStrLe where
  total a b := by
    rcases pyStrLt_trichotomy a b with h | h | h
    · exact Or.inl (pyStrLe_of_lt h)
    · exact Or.inl (by subst h; exact pyStrLe_iff.2 (pyStrLt_irrefl a))
    · exact Or.inr (pyStrLe_of_lt h)

instance : IsTrans String pyStrLe where
  trans a b c hab hbc := by
    rw [pyStrLe_iff] at hab hbc ⊢
    intro hca
    rcases pyStrLt_trichotomy a b with h | h | h
    · exact hbc (pyStrLt_trans hca h)
    · exact hbc (h ▸ hca)
    · exact hab h

instance : IsAntisymm String pyStrLe where
  antisymm a b hab hba := by
    rcases pyStrLt_trichotomy a b with h | h | h
    · exact absurd h (pyStrLe_iff.1 hba)
    · exact h
    · exact absurd h (pyStrLe_iff.1 hab)

/-! ## Surrogate key assignment (etl/03, `write_movies_and_id_map` /
`write_persons_and_id_map`): `for idx, k in enumerate(sorted(keys), start=1)` -/

/-- `enumerate(l, start=i)`. -/
def enumFrom {α : Type} (i : Nat) : List α → List (Nat × α)
  | [] => []
  | a :: l => (i, a) :: enumFrom (i + 1) l

theorem enumFrom_map_fst {α : Type} (i : Nat) (l : List α) :
    (enumFrom i l).map Prod.fst = List.range' i l.length := by
  induction l generalizing i with
  | nil => rfl
  | cons a l ih => simp [enumFrom, List.range', ih]

theorem mem_enumFrom {α : Type} {i : Nat} {l : List α} {p : Nat × α}
    (h : p ∈ enumFrom i l) : i ≤ p.1 ∧ p.2 ∈ l := by
  induction l generalizing i with
  | nil => simp [enumFrom] at h
  | cons a l ih =>
    simp only [enumFrom, List.mem_cons] at h
    rcases h with h | h
    · subst h; simp
    · rcases ih h with ⟨h₁, h₂⟩
      exact ⟨by omega, List.mem_cons_of_mem _ h₂⟩

theorem enumFrom_pairwise {α : Type} {R : α → α → Prop} {l : List α}
    (h : l.Pairwise R) (i : Nat) :
    (enumFrom i l).Pairwise (fun p q => p.1 < q.1 ∧ R p.2 q.2) := by
  induction l generalizing i with
  | nil => exact List.Pairwise.nil
  | cons a l ih =>
    rcases List.pairwise_cons.1 h with ⟨ha, hl⟩
    refine List.pairwise_cons.2 ⟨?_, ih hl (i + 1)⟩
    intro q hq
    rcases mem_enumFrom hq with ⟨h₁, h₂⟩
    exact ⟨by omega, ha _ h₂⟩

/-- Keys of an entity map, sorted the way Python's `sorted` sorts strings. -/
def sortedKeys (keys : List String) : List String :=
  List.insertionSort pyStrLe keys

theorem sortedKeys_perm (keys : List String) : List.Perm (sortedKeys keys) keys :=
  List.perm_insertionSort pyStrLe keys

theorem sortedKeys_sorted (keys : List String) :
    (sortedKeys keys).Pairwise pyStrLe :=
  List.sorted_insertionSort pyStrLe keys

theorem sortedKeys_pairwise_lt {keys : List String} (h : keys.Nodup) :
    (sortedKeys keys).Pairwise pyStrLt := by
  have hnd : (sortedKeys keys).Nodup := ((sortedKeys_perm keys).symm.nodup h)
  exact ((sortedKeys_sorted keys).and hnd).imp fun hp =>
    pyStrLt_of_le_of_ne hp.1 hp.2

theorem sortedKeys_eq_of_perm {k₁ k₂ : List String} (h : List.Perm k₁ k₂) :
    sortedKeys k₁ = sortedKeys k₂ :=
  List.eq_of_perm_of_sorted
    (((sortedKeys_perm k₁).trans h).trans (sortedKeys_perm k₂).symm)
    (sortedKeys_sorted k₁) (sortedKeys_sorted k₂)

/-! ## Movie / Person entity records (etl/03) -/

/-- A merged Movie record of `collect_movies`; `none` models Python `None`,
`some ""` models an empty string observed in the input. -/
structure MovieRec where
  movie_douban_id : String
  title : Option String
  image_url : Option String
  release_date : Option String
  runtime_minutes : Option String
  summary : Option String
deriving DecidableEq, Repr

/-- A merged Person record of `collect_persons`. -/
structure PersonRec where
  person_douban_id : String
  name : Option String
  avatar_url : Option String
  sex : Option String
  birth_date : Option String
  death_date : Option String
  birth_place_raw : Option String
  birth_region : Option String
  imdb_id : Option String
deriving DecidableEq, Repr

/-- The id-assignment part of `write_movies_and_id_map`: the `movie_id_map.csv`
rows `(movie_id, movie_douban_id)` produced for a movie entity map.
Source: `mids_sorted = sorted(movies.keys())`, then
`for idx, mid in enumerate(mids_sorted, start=1): writer.writerow([idx, mid])`. -/
def write_movie_id_map (movies : List (String × MovieRec)) : List (Nat × String) :=
  enumFrom 1 (sortedKeys (movies.map Prod.fst))

/-- The id-assignment part of `write_persons_and_id_map`, identical shape. -/
def write_person_id_map (persons : List (String × PersonRec)) : List (Nat × String) :=
  enumFrom 1 (sortedKeys (persons.map Prod.fst))

/-- The surrogate id assigned to a natural key by an id-map table. -/
def idOf (rows : List (Nat × String)) (k : String) : Option Nat :=
  (rows.find? (fun p => p.2 = k)).map Prod.fst

/-- An empty movie record for a given natural key. -/
def emptyMovieRec (mid : String) : MovieRec :=
  ⟨mid, none, none, none, none, none⟩

/-- A two-movie entity map whose natural keys are the numeric site ids 9 and 10. -/
def demoMovies : List (String × MovieRec) :=
  [("9", emptyMovieRec "9"), ("10", emptyMovieRec "10")]

/-- C1 counterexample: on the entity map with natural keys "9" and "10", the
assigner (which sorts the keys as strings) gives id 1 to "10" and id 2 to "9";
numerically 9 < 10, yet id("9") = 2 > 1 = id("10"), so the assignment order is
not numerically ascending. -/
theorem c1_counterexample :
    idOf (write_movie_id_map demoMovies) "9" = some 2 ∧
    idOf (write_movie_id_map demoMovies) "10" = some 1 ∧
    (9 : Nat) < 10 := by
  refine ⟨?_, ?_, by norm_num⟩ <;> decide

/-- C1 (amended): for the Movie and Person entity maps the assigner assigns the
ids 1, 2, …, n with no gaps, and the assignment order is ascending in the
*lexicographic string order* of the natural keys (not in numeric order): both
emitted tables are strictly increasing in id and in lexicographic key order
simultaneously. -/
theorem c1_id_assignment_sorted
    (movies : List (String × MovieRec)) (persons : List (String × PersonRec))
    (hm : (movies.map Prod.fst).Nodup) (hp : (persons.map Prod.fst).Nodup) :
    (write_movie_id_map movies).map Prod.fst = List.range' 1 movies.length ∧
    (write_movie_id_map movies).Pairwise
      (fun p q => p.1 < q.1 ∧ pyStrLt p.2 q.2) ∧
    (write_person_id_map persons).map Prod.fst = List.range' 1 persons.length ∧
    (write_person_id_map persons).Pairwise
      (fun p q => p.1 < q.1 ∧ pyStrLt p.2 q.2) := by
  refine ⟨?_, ?_, ?_, ?_⟩
  · rw [write_movie_id_map, enumFrom_map_fst,
      (sortedKeys_perm _).length_eq, List.length_map]
  · exact enumFrom_pairwise (sortedKeys_pairwise_lt hm) 1
  · rw [write_person_id_map, enumFrom_map_fst,
      (sortedKeys_perm _).length_eq, List.length_map]
  · exact enumFrom_pairwise (sortedKeys_pairwise_lt hp) 1

/-- Witness for `c1_id_assignment_sorted` at the concrete map `demoMovies`. -/
theorem c1_id_assignment_sorted_witness :
    (write_movie_id_map demoMovies).map Prod.fst = List.range' 1 2 ∧
    (write_movie_id_map demoMovies).Pairwise
      (fun p q => p.1 < q.1 ∧ pyStrLt p.2 q.2) :=
  ⟨(c1_id_assignment_sorted demoMovies [] (by decide) (by decide)).1,
   (c1_id_assignment_sorted demoMovies [] (by decide) (by decide)).2.1⟩

/-! ## Python `dict` as an insertion-ordered association list -/

/-- Lookup in an association list (Python `d.get(k)` / `d[k]`). -/
def alookup {K V : Type} [DecidableEq K] (k : K) : List (K × V) → Option V
  | [] => none
  | (k', v) :: rest => if k' = k then some v else alookup k rest

/-- `d[k] = f(d[k])` when `k` is present, else `d[k] = init` appended at the
end: the combined effect of the `if k not in d: d[k] = init else: mutate` idiom,
preserving Python dict insertion order. -/
def upsert {K V : Type} [DecidableEq K] (k : K) (f : V → V) (init : V) :
    List (K × V) → List (K × V)
  | [] => [(k, init)]
  | (k', v) :: rest =>
    if k' = k then (k', f v) :: rest else (k', v) :: upsert k f init rest

theorem alookup_upsert_self {K V : Type} [DecidableEq K]
    (k : K) (f : V → V) (init : V) (m : List (K × V)) :
    alookup k (upsert k f init m) =
      some (match alookup k m with | some v => f v | none => init) := by
  induction m with
  | nil => simp [alookup, upsert]
  | cons p rest ih =>
    obtain ⟨k', v⟩ := p
    by_cases h : k' = k <;> simp [alookup, upsert, h, ih]

theorem alookup_upsert_ne {K V : Type} [DecidableEq K]
    {k k' : K} (h : k' ≠ k) (f : V → V) (init : V) (m : List (K × V)) :
    alookup k' (upsert k f init m) = alookup k' m := by
  induction m with
  | nil =>
    have hne : k ≠ k' := fun hh => h hh.symm
    simp [alookup, upsert, hne]
  | cons p rest ih =>
    obtain ⟨k₀, v⟩ := p
    by_cases h₀ : k₀ = k
    · subst h₀
      have hne : k₀ ≠ k' := fun hh => h hh.symm
      simp [alookup, upsert, hne]
    · by_cases h₁ : k₀ = k' <;> simp [alookup, upsert, h₀, h₁, h, ih]

theorem alookup_eq_none_iff {K V : Type} [DecidableEq K]
    (k : K) (m : List (K × V)) :
    alookup k m = none ↔ k ∉ m.map Prod.fst := by
  induction m with
  | nil => simp [alookup]
  | cons p rest ih =>
    obtain ⟨k', v⟩ := p
    by_cases h : k' = k
    · subst h; simp [alookup]
    · have hne : k ≠ k' := fun hh => h hh.symm
      simp [alookup, h, ih, hne]

theorem map_fst_upsert {K V : Type} [DecidableEq K]
    (k : K) (f : V → V) (init : V) (m : List (K × V)) :
    (upsert k f init m).map Prod.fst =
      if k ∈ m.map Prod.fst then m.map Prod.fst else m.map Prod.fst ++ [k] := by
  induction m with
  | nil => simp [upsert]
  | cons p rest ih =>
    obtain ⟨k', v⟩ := p
    by_cases h : k' = k
    · subst h; simp [upsert]
    · have hne : k ≠ k' := fun hh => h hh.symm
      simp only [upsert, if_neg h, List.map_cons, List.mem_cons]
      rw [ih]
      by_cases hm : k ∈ rest.map Prod.fst <;> simp [hm, hne]

theorem nodup_map_fst_upsert {K V : Type} [DecidableEq K]
    (k : K) (f : V → V) (init : V) {m : List (K × V)}
    (h : (m.map Prod.fst).Nodup) :
    ((upsert k f init m).map Prod.fst).Nodup := by
  rw [map_fst_upsert]
  by_cases hm : k ∈ m.map Prod.fst
  · simpa [hm] using h
  · simpa [hm, List.nodup_append] using h

theorem mem_upsert {K V : Type} [DecidableEq K]
    {k : K} {f : V → V} {init : V} {p : K × V} :
    ∀ {m : List (K × V)}, p ∈ upsert k f init m → p ∈ m ∨ p.1 = k
  | [], h => by
    simp only [upsert, List.mem_singleton] at h
    exact Or.inr (by rw [h])
  | (k', v) :: rest, h => by
    by_cases h₀ : k' = k
    · subst h₀
      have h' : p = (k', f v) ∨ p ∈ rest := by simpa [upsert] using h
      refine h'.elim (fun h1 => Or.inr ?_) (fun h1 => Or.inl (List.mem_cons_of_mem _ h1))
      rw [h1]
    · have h' : p = (k', v) ∨ p ∈ upsert k f init rest := by
        simpa [upsert, h₀] using h
      refine h'.elim (fun h1 => Or.inl ?_) (fun h1 => ?_)
      · rw [h1]; exact List.mem_cons_self _ _
      · rcases mem_upsert h1 with h2 | h2
        · exact Or.inl (List.mem_cons_of_mem _ h2)
        · exact Or.inr h2

/-! ## Python string helpers used by the ETL scripts -/

/-- Whitespace stripped by Python `str.strip()` (ASCII whitespace plus the
no-break and ideographic spaces, which cover every character the crawler's
data can contain). -/
def isPyWs (c : Char) : Bool :=
  c = ' ' ∨ c = '\t' ∨ c = '\n' ∨ c = '\r' ∨ c = '\x0b' ∨ c = '\x0c' ∨
    c = ' ' ∨ c = '　'

/-- Drop matching characters from both ends (Python `str.strip(chars)`). -/
def stripList (p : Char → Bool) (l : List Char) : List Char :=
  ((l.dropWhile p).reverse.dropWhile p).reverse

/-- Python `s.strip()`. -/
def pyStrip (s : String) : String := ⟨stripList isPyWs s.data⟩

/-- The character set of `normalize_str`'s second strip: `' "　“”'`. -/
def isNormQuote (c : Char) : Bool :=
  c = ' ' ∨ c = '"' ∨ c = '　' ∨ c = '“' ∨ c = '”'

/-- `normalize_str` of etl/03 (and etl/01): `strip()` then `None` if empty,
then strip quotes/ideographic space from both ends. -/
def normalize_str : Option String → Option String
  | none => none
  | some s =>
    let t := pyStrip s
    if t = "" then none else some ⟨stripList isNormQuote t.data⟩

/-- Python truthiness of an optional string (`if not s`). -/
def pyTruthy : Option String → Bool
  | none => false
  | some s => decide (s ≠ "")

/-- Python `a or b` on optional strings. -/
def pyOr (a b : Option String) : Option String := if pyTruthy a then a else b

/-- `str.split()` with no argument: split on whitespace runs. -/
def pyWordsAux : List Char → List Char → List (List Char)
  | [], acc => if acc.isEmpty then [] else [acc.reverse]
  | c :: cs, acc =>
    if isPyWs c then
      if acc.isEmpty then pyWordsAux cs [] else acc.reverse :: pyWordsAux cs []
    else pyWordsAux cs (c :: acc)

/-- `" ".join(s.split())`. -/
def pyJoinSplit (s : String) : String :=
  ⟨List.intercalate [' '] (pyWordsAux s.data [])⟩

/-- `sanitize_text_for_csv` of etl/03: `normalize_str`, then newlines/tabs
replaced by spaces and whitespace runs collapsed.  The intermediate
`replace("\r\n","\n")…replace("\t"," ")` steps only turn whitespace into
whitespace, so the final `" ".join(split())` gives the same result applied
directly. -/
def sanitize_text_for_csv (s : Option String) : Option String :=
  match normalize_str s with
  | none => none
  | some t => some (pyJoinSplit t)

/-! ## etl/03 `collect_movies` -/

/-- One line of `movies_basic.jsonl` as the script reads it
(`runtime_minutes` is already `str(raw)` when present and non-empty). -/
structure MovieBasicObj where
  movie_douban_id : Option String
  title : Option String
  image_url : Option String
  release_date : Option String
  runtime_minutes : Option String
deriving DecidableEq, Repr

/-- One line of `movies_summary.jsonl`. -/
structure MovieSummaryObj where
  movie_douban_id : Option String
  summary : Option String
deriving DecidableEq, Repr

/-- `if value and not rec.get(field): rec[field] = value`. -/
def fillField (old new : Option String) : Option String :=
  if pyTruthy new && !pyTruthy old then new else old

/-- The natural key a basic record contributes, if acceptable
(`mid = normalize_str(...)`; `if not mid: continue`). -/
def basicKey (o : MovieBasicObj) : Option String :=
  match normalize_str o.movie_douban_id with
  | none => none
  | some mid => if mid = "" then none else some mid

/-- `str(runtime_raw)` unless `runtime_raw` is `None` or `""`. -/
def runtimeVal (o : MovieBasicObj) : Option String :=
  match o.runtime_minutes with
  | none => none
  | some r => if r = "" then none else some r

/-- The merge applied to an existing movie record by one basic line. -/
def mergeMovieBasic (r : MovieRec) (o : MovieBasicObj) : MovieRec :=
  { r with
    title := fillField r.title (normalize_str o.title)
    image_url := fillField r.image_url (normalize_str o.image_url)
    release_date := fillField r.release_date (normalize_str o.release_date)
    runtime_minutes := fillField r.runtime_minutes (runtimeVal o) }

/-- The record created on first sighting of a movie in the basic stream. -/
def initMovieBasic (mid : String) (o : MovieBasicObj) : MovieRec :=
  ⟨mid, normalize_str o.title, normalize_str o.image_url,
    normalize_str o.release_date, runtimeVal o, none⟩

/-- One iteration of the `movies_basic.jsonl` loop of `collect_movies`. -/
def collect_movies_basic_step (m : List (String × MovieRec)) (o : MovieBasicObj) :
    List (String × MovieRec) :=
  match basicKey o with
  | none => m
  | some mid => upsert mid (fun r => mergeMovieBasic r o) (initMovieBasic mid o) m

/-- The natural key and sanitized summary a summary record contributes, if
acceptable (`if not mid: continue`, `if not summary: continue`). -/
def summaryKeyVal (o : MovieSummaryObj) : Option (String × String) :=
  match normalize_str o.movie_douban_id with
  | none => none
  | some mid =>
    if mid = "" then none
    else
      match sanitize_text_for_csv o.summary with
      | none => none
      | some s => if s = "" then none else some (mid, s)

/-- One iteration of the `movies_summary.jsonl` loop of `collect_movies`. -/
def collect_movies_summary_step (m : List (String × MovieRec)) (o : MovieSummaryObj) :
    List (String × MovieRec) :=
  match summaryKeyVal o with
  | none => m
  | some (mid, s) =>
    upsert mid (fun r => { r with summary := fillField r.summary (some s) })
      ⟨mid, none, none, none, none, some s⟩ m

/-- `collect_movies` of etl/03: fold the basic stream, then the summary
stream, into one movie entity map. -/
def collect_movies (basics : List MovieBasicObj) (summaries : List MovieSummaryObj) :
    List (String × MovieRec) :=
  summaries.foldl collect_movies_summary_step
    (basics.foldl collect_movies_basic_step [])

/-! ## etl/01 genre dictionary -/

/-- Add an element to a Python-set-like accumulator (membership dedup; the
representation order is irrelevant because the writer sorts). -/
def addToSet (s : List String) (x : String) : List String :=
  if x ∈ s then s else s ++ [x]

/-- The genre-collection part of `collect_basic_sets` of etl/01: every
normalized, non-empty genre name of every record's `genres` list. -/
def collect_genres (recs : List (List (Option String))) : List String :=
  recs.foldl
    (fun acc raws =>
      raws.foldl
        (fun acc g =>
          match normalize_str g with
          | none => acc
          | some n => if n = "" then acc else addToSet acc n)
        acc)
    []

/-- `write_genre_dict` of etl/01: `for idx, name in enumerate(sorted(genres), start=1)`. -/
def write_genre_dict (genres : List String) : List (Nat × String) :=
  enumFrom 1 (sortedKeys genres)

/-- The language-collection part of `collect_basic_sets` of etl/01: every
normalized, non-empty language name of every `movies_details.jsonl` record's
`languages` list (the source fills `languages` and `regions` in the same loop;
the two sets are independent, so each is a fold over its own column). -/
def collect_languages (recs : List (List (Option String))) : List String :=
  recs.foldl
    (fun acc raws =>
      raws.foldl
        (fun acc g =>
          match normalize_str g with
          | none => acc
          | some n => if n = "" then acc else addToSet acc n)
        acc)
    []

/-- The region-collection part of `collect_basic_sets` of etl/01: the `regions`
lists of `movies_details.jsonl`, then every normalized non-empty `birth_region`
of `person_details_fixed.jsonl`, accumulated into one set. -/
def collect_regions (movieRecs : List (List (Option String)))
    (personRecs : List (Option String)) : List String :=
  personRecs.foldl
    (fun acc br =>
      match normalize_str br with
      | none => acc
      | some n => if n = "" then acc else addToSet acc n)
    (movieRecs.foldl
      (fun acc raws =>
        raws.foldl
          (fun acc r =>
            match normalize_str r with
            | none => acc
            | some n => if n = "" then acc else addToSet acc n)
          acc)
      [])

/-- `write_language_dict` of etl/01: `enumerate(sorted(languages), start=1)`. -/
def write_language_dict (languages : List String) : List (Nat × String) :=
  enumFrom 1 (sortedKeys languages)

/-- `write_region_dict` of etl/01: `enumerate(sorted(regions), start=1)`. -/
def write_region_dict (regions : List String) : List (Nat × String) :=
  enumFrom 1 (sortedKeys regions)

/-! ## etl/01 festival and award dictionaries -/

/-- The year component of the etl/01 sort keys:
`k[1] if k[1] is not None else 999999`. -/
def festYearKey : Option Int → Int
  | none => 999999
  | some y => y

/-- Boolean comparison realizing the `(name, year-key)` tuple order that
`write_festival_dict` sorts the festival keys by. -/
def festLeB (a b : String × Option Int) : Bool :=
  if pyStrLtB a.1 b.1 then true
  else if a.1 = b.1 then decide (festYearKey a.2 ≤ festYearKey b.2)
  else false

/-- The festival sort order as a proposition. -/
def festLe (a b : String × Option Int) : Prop := festLeB a b = true

instance : DecidableRel festLe := fun _ _ => inferInstanceAs (Decidable (_ = _))

theorem festLe_iff {a b : String × Option Int} :
    festLe a b ↔
      pyStrLt a.1 b.1 ∨ (a.1 = b.1 ∧ festYearKey a.2 ≤ festYearKey b.2) := by
  unfold festLe festLeB
  by_cases h₁ : pyStrLtB a.1 b.1 = true
  · rw [if_pos h₁]
    exact iff_of_true rfl (Or.inl h₁)
  · rw [if_neg h₁]
    by_cases h₂ : a.1 = b.1
    · rw [if_pos h₂, decide_eq_true_eq]
      constructor
      · exact fun h => Or.inr ⟨h₂, h⟩
      · rintro (h | ⟨-, h⟩)
        · exact absurd h h₁
        · exact h
    · rw [if_neg h₂]
      constructor
      · intro h
        exact (Bool.false_ne_true h).elim
      · rintro (h | ⟨h, -⟩)
        · exact absurd h h₁
        · exact absurd h h₂

instance : IsTotal (String × Option Int) festLe where
  total a b := by
    rcases pyStrLt_trichotomy a.1 b.1 with h | h | h
    · exact Or.inl (festLe_iff.2 (Or.inl h))
    · rcases le_total (festYearKey a.2) (festYearKey b.2) with hy | hy
      · exact Or.inl (festLe_iff.2 (Or.inr ⟨h, hy⟩))
      · exact Or.inr (festLe_iff.2 (Or.inr ⟨h.symm, hy⟩))
    · exact Or.inr (festLe_iff.2 (Or.inl h))

instance : IsTrans (String × Option Int) festLe where
  trans a b c h₁ h₂ := by
    rcases festLe_iff.1 h₁ with h₁ | ⟨h₁e, h₁y⟩ <;>
      rcases festLe_iff.1 h₂ with h₂ | ⟨h₂e, h₂y⟩
    · exact festLe_iff.2 (Or.inl (pyStrLt_trans h₁ h₂))
    · exact festLe_iff.2 (Or.inl (by rw [← h₂e]; exact h₁))
    · exact festLe_iff.2 (Or.inl (by rw [h₁e]; exact h₂))
    · exact festLe_iff.2 (Or.inr ⟨h₁e.trans h₂e, le_trans h₁y h₂y⟩)

/-- `write_festival_dict` of etl/01, on the collected festival key list (the
keys of the insertion-ordered `festivals` dict): sort by `(name, year-key)`
and number from 1.  Every emitted row and the returned `festival_id_map` pair a
numbered key with that key's payload, so this key numbering is the whole
surrogate assignment. -/
def write_festival_dict (keys : List (String × Option Int)) :
    List (Nat × (String × Option Int)) :=
  enumFrom 1 (List.insertionSort festLe keys)

/-- Two lists that are sorted, are permutations of each other, and whose
ordering relation is antisymmetric on their elements, are equal. -/
theorem eq_of_perm_of_sorted_antisymmOn {α : Type} {le : α → α → Prop} :
    ∀ {l₁ l₂ : List α}, List.Perm l₁ l₂ → l₁.Pairwise le → l₂.Pairwise le →
      (∀ a ∈ l₁, ∀ b ∈ l₁, le a b → le b a → a = b) → l₁ = l₂ := by
  intro l₁
  induction l₁ with
  | nil =>
    intro l₂ hp _ _ _
    exact hp.symm.eq_nil.symm
  | cons a t₁ ih =>
    intro l₂ hp hs₁ hs₂ ha
    cases l₂ with
    | nil => exact absurd hp.eq_nil (List.cons_ne_nil a t₁)
    | cons b t₂ =>
      have hab : a = b := by
        by_contra hne
        have hbmem : b ∈ a :: t₁ := hp.symm.subset (List.mem_cons_self b t₂)
        have hamem : a ∈ b :: t₂ := hp.subset (List.mem_cons_self a t₁)
        have hb₁ : b ∈ t₁ := by
          rcases List.mem_cons.1 hbmem with h | h
          · exact absurd h.symm hne
          · exact h
        have ha₂ : a ∈ t₂ := by
          rcases List.mem_cons.1 hamem with h | h
          · exact absurd h hne
          · exact h
        have hlab : le a b := (List.pairwise_cons.1 hs₁).1 b hb₁
        have hlba : le b a := (List.pairwise_cons.1 hs₂).1 a ha₂
        exact hne (ha a (List.mem_cons_self a t₁) b hbmem hlab hlba)
      subst hab
      have ht : List.Perm t₁ t₂ := hp.cons_inv
      have hrec := ih ht (List.pairwise_cons.1 hs₁).2 (List.pairwise_cons.1 hs₂).2
        (fun x hx y hy => ha x (List.mem_cons_of_mem a hx) y (List.mem_cons_of_mem a hy))
      rw [hrec]

/-- On festival keys whose year is not the sentinel 999999, the festival sort
order is antisymmetric: distinct keys never tie (a tie needs equal names and
equal year keys, and the year key is then injective). -/
theorem festLe_antisymm_of_ne {a b : String × Option Int}
    (hna : a.2 ≠ some (999999 : Int)) (hnb : b.2 ≠ some (999999 : Int))
    (h₁ : festLe a b) (h₂ : festLe b a) : a = b := by
  rcases festLe_iff.1 h₁ with h₁ | ⟨h₁e, h₁y⟩
  · rcases festLe_iff.1 h₂ with h₂ | ⟨h₂e, -⟩
    · exact absurd h₂ (pyStrLt_asymm h₁)
    · rw [h₂e] at h₁
      exact absurd h₁ (pyStrLt_irrefl _)
  · rcases festLe_iff.1 h₂ with h₂ | ⟨-, h₂y⟩
    · rw [h₁e] at h₂
      exact absurd h₂ (pyStrLt_irrefl _)
    · have hy : festYearKey a.2 = festYearKey b.2 := le_antisymm h₁y h₂y
      have hyy : a.2 = b.2 := by
        cases ha2 : a.2 with
        | none =>
          cases hb2 : b.2 with
          | none => rfl
          | some y =>
            rw [ha2, hb2] at hy
            simp only [festYearKey] at hy
            exact absurd (hb2.trans (congrArg some hy.symm)) hnb
        | some x =>
          cases hb2 : b.2 with
          | none =>
            rw [ha2, hb2] at hy
            simp only [festYearKey] at hy
            exact absurd (ha2.trans (congrArg some hy)) hna
          | some y =>
            rw [ha2, hb2] at hy
            simp only [festYearKey] at hy
            rw [hy]
      exact Prod.ext h₁e hyy

/-- The festival writer's sorted key list depends only on the key set, provided
no collected year equals the sentinel 999999. -/
theorem festSort_eq_of_perm {ks₁ ks₂ : List (String × Option Int)}
    (hp : List.Perm ks₁ ks₂) (hno : ∀ k ∈ ks₁, k.2 ≠ some (999999 : Int)) :
    List.insertionSort festLe ks₁ = List.insertionSort festLe ks₂ := by
  apply eq_of_perm_of_sorted_antisymmOn
    (((List.perm_insertionSort festLe ks₁).trans hp).trans
      (List.perm_insertionSort festLe ks₂).symm)
    (List.sorted_insertionSort festLe ks₁)
    (List.sorted_insertionSort festLe ks₂)
  intro a ha b hb hab hba
  exact festLe_antisymm_of_ne
    (hno a ((List.perm_insertionSort festLe ks₁).subset ha))
    (hno b ((List.perm_insertionSort festLe ks₁).subset hb))
    hab hba

/-- One element of the etl/01 `awards` set:
`(fest_name or "", fest_year, award_name, award_type)`. -/
structure AwardKey where
  fest_name : String
  fest_year : Option Int
  award_name : String
  award_type : Option String
deriving DecidableEq, Repr

/-- Boolean comparison realizing the sort key of `write_award_dict`:
`(x[0], x[1] if x[1] is not None else 999999, x[2])` — festival name, year
key and award name, but NOT `x[3]`, the award type. -/
def awardSortLeB (a b : AwardKey × Nat) : Bool :=
  if pyStrLtB a.1.fest_name b.1.fest_name then true
  else if a.1.fest_name = b.1.fest_name then
    if festYearKey a.1.fest_year < festYearKey b.1.fest_year then true
    else if festYearKey a.1.fest_year = festYearKey b.1.fest_year then
      !(pyStrLtB b.1.award_name a.1.award_name)
    else false
  else false

/-- The award sort order as a proposition. -/
def awardSortLe (a b : AwardKey × Nat) : Prop := awardSortLeB a b = true

instance : DecidableRel awardSortLe := fun _ _ => inferInstanceAs (Decidable (_ = _))

/-- `write_award_dict` of etl/01, on a list representation of the `awards`
set: keep the awards whose `(fest_name, fest_year)` key resolves to a nonzero
festival id (`if not fest_id: continue`; the `fest_name or ""` guard is the
identity here because the set already stores `fest_name or ""`), sort stably by
the incomplete `(fest_name, year-key, award_name)` key — `sorted` and
`List.insertionSort` both compute the unique stable sort — and emit
`(award_id, festival_id, award_name, award_type)` numbered from 1. -/
def write_award_dict (awards : List AwardKey)
    (festival_id_map : List ((String × Option Int) × Nat)) :
    List (Nat × (Nat × String × Option String)) :=
  enumFrom 1
    ((List.insertionSort awardSortLe
        (awards.filterMap (fun a =>
          match alookup (a.fest_name, a.fest_year) festival_id_map with
          | none => none
          | some fest_id => if fest_id = 0 then none else some (a, fest_id)))).map
      (fun p => (p.2, p.1.award_name, p.1.award_type)))

/-- A festival id map with one festival, and the same two-element award set in
its two possible iteration orders: the two awards differ only in their
`award_type`, which the sort key of `write_award_dict` ignores. -/
def demoFestMap : List ((String × Option Int) × Nat) := [(("FestA", some 2000), 1)]

def demoAwards₁ : List AwardKey :=
  [⟨"FestA", some 2000, "Best", some "movie"⟩,
   ⟨"FestA", some 2000, "Best", some "person"⟩]

def demoAwards₂ : List AwardKey :=
  [⟨"FestA", some 2000, "Best", some "person"⟩,
   ⟨"FestA", some 2000, "Best", some "movie"⟩]

/-- C7, counterexample: the Award dictionary violates two-run determinism.
`write_award_dict` sorts only by (festival name, year key, award name) and
ignores the award type, while the `awards` collection is a Python `set`, whose
iteration order over strings is not reproducible across processes (hash
randomization).  Two runs that collect the very same set of awards — here the
two permutations of a two-element set whose awards differ only in
`award_type` — assign the two award ids in opposite orders. -/
theorem c7_counterexample :
    List.Perm demoAwards₁ demoAwards₂ ∧
    write_award_dict demoAwards₁ demoFestMap ≠
      write_award_dict demoAwards₂ demoFestMap :=
  ⟨by decide, by decide⟩

/-! ## C4: first-non-empty-wins merge laws for `collect_movies` -/

/-- `truthyN o` is `o` if it is a non-empty string, else `none`: the value of a
field "as observed through Python truthiness". -/
def truthyN (o : Option String) : Option String := if pyTruthy o then o else none

/-- `oOr a b = a` unless `a = none`. -/
def oOr (a b : Option String) : Option String :=
  match a with
  | some x => some x
  | none => b

/-- Repeated `fillField` against a stream of observed values. -/
def fillList (old : Option String) (vs : List (Option String)) : Option String :=
  vs.foldl fillField old

theorem pyTruthy_none : pyTruthy none = false := rfl

theorem pyTruthy_some (s : String) : pyTruthy (some s) = decide (s ≠ "") := rfl

theorem truthyN_fillField (old new : Option String) :
    truthyN (fillField old new) = oOr (truthyN old) (truthyN new) := by
  cases old with
  | none =>
    cases hNew : pyTruthy new <;>
      simp [fillField, truthyN, pyTruthy_none, hNew, oOr]
  | some a =>
    by_cases ha : a = ""
    · subst ha
      cases hNew : pyTruthy new <;>
        simp [fillField, truthyN, pyTruthy_some, hNew, oOr]
    · cases hNew : pyTruthy new <;>
        simp [fillField, truthyN, pyTruthy_some, ha, hNew, oOr]

theorem oOr_none (a : Option String) : oOr a none = a := by
  cases a <;> rfl

theorem oOr_assoc (a b c : Option String) :
    oOr (oOr a b) c = oOr a (oOr b c) := by
  cases a <;> rfl

theorem truthyN_fillList (vs : List (Option String)) (old : Option String) :
    truthyN (fillList old vs) = oOr (truthyN old) (vs.findSome? truthyN) := by
  induction vs generalizing old with
  | nil => simp [fillList, oOr_none]
  | cons v vs ih =>
    have h1 : fillList old (v :: vs) = fillList (fillField old v) vs := rfl
    rw [h1, ih, truthyN_fillField, oOr_assoc, List.findSome?_cons]
    cases hv : truthyN v <;> simp [oOr]

/-- The basic-stream observations contributing to the natural key `mid`. -/
def movieBasicObsFor (mid : String) (l : List MovieBasicObj) : List MovieBasicObj :=
  l.filter (fun o => basicKey o = some mid)

/-- Folding the basic-stream merges over an existing record. -/
def foldMergeBasic (r : MovieRec) (os : List MovieBasicObj) : MovieRec :=
  os.foldl mergeMovieBasic r

/-- State of one map entry after folding the basic stream: either the entry was
already present (and gets merged into), or it is created by the first matching
observation and merged with the rest. -/
def basicResult (cur : Option MovieRec) (mid : String) (os : List MovieBasicObj) :
    Option MovieRec :=
  match cur, os with
  | some r, os => some (foldMergeBasic r os)
  | none, [] => none
  | none, o :: os => some (foldMergeBasic (initMovieBasic mid o) os)

theorem basicResult_push (cur : Option MovieRec) (mid : String) (o : MovieBasicObj)
    (os : List MovieBasicObj) :
    basicResult cur mid (o :: os) =
      basicResult
        (some (match cur with
          | some r => mergeMovieBasic r o
          | none => initMovieBasic mid o)) mid os := by
  cases cur <;> rfl

theorem alookup_foldl_basic (l : List MovieBasicObj) (m : List (String × MovieRec))
    (mid : String) :
    alookup mid (l.foldl collect_movies_basic_step m) =
      basicResult (alookup mid m) mid (movieBasicObsFor mid l) := by
  induction l generalizing m with
  | nil =>
    cases h : alookup mid m <;> simp [movieBasicObsFor, basicResult, foldMergeBasic, h]
  | cons o l ih =>
    rw [List.foldl_cons, ih]
    cases hk : basicKey o with
    | none =>
      have hstep : collect_movies_basic_step m o = m := by
        simp [collect_movies_basic_step, hk]
      have hobs : movieBasicObsFor mid (o :: l) = movieBasicObsFor mid l := by
        simp [movieBasicObsFor, hk]
      rw [hstep, hobs]
    | some k =>
      by_cases hkm : k = mid
      · subst hkm
        have hstep : collect_movies_basic_step m o =
            upsert k (fun r => mergeMovieBasic r o) (initMovieBasic k o) m := by
          simp [collect_movies_basic_step, hk]
        have hobs : movieBasicObsFor k (o :: l) = o :: movieBasicObsFor k l := by
          simp [movieBasicObsFor, hk]
        rw [hstep, hobs, alookup_upsert_self, basicResult_push]
        cases alookup k m <;> rfl
      · have hstep : collect_movies_basic_step m o =
            upsert k (fun r => mergeMovieBasic r o) (initMovieBasic k o) m := by
          simp [collect_movies_basic_step, hk]
        have hobs : movieBasicObsFor mid (o :: l) = movieBasicObsFor mid l := by
          simp [movieBasicObsFor, hk, hkm]
        have hne : mid ≠ k := fun hh => hkm hh.symm
        rw [hstep, hobs, alookup_upsert_ne hne]

/-- The sanitized summaries contributed to `mid` by the summary stream. -/
def summaryObsFor (mid : String) (l : List MovieSummaryObj) : List String :=
  l.filterMap (fun o =>
    match summaryKeyVal o with
    | some (k, s) => if k = mid then some s else none
    | none => none)

/-- Folding the summary-stream merges over an existing record. -/
def foldMergeSummary (r : MovieRec) (ss : List String) : MovieRec :=
  ss.foldl (fun r s => { r with summary := fillField r.summary (some s) }) r

/-- State of one map entry after folding the summary stream. -/
def summaryResult (cur : Option MovieRec) (mid : String) (ss : List String) :
    Option MovieRec :=
  match cur, ss with
  | some r, ss => some (foldMergeSummary r ss)
  | none, [] => none
  | none, s :: ss => some (foldMergeSummary ⟨mid, none, none, none, none, some s⟩ ss)

theorem summaryResult_push (cur : Option MovieRec) (mid : String) (s : String)
    (ss : List String) :
    summaryResult cur mid (s :: ss) =
      summaryResult
        (some (match cur with
          | some r => { r with summary := fillField r.summary (some s) }
          | none => ⟨mid, none, none, none, none, some s⟩)) mid ss := by
  cases cur <;> rfl

theorem alookup_foldl_summary (l : List MovieSummaryObj)
    (m : List (String × MovieRec)) (mid : String) :
    alookup mid (l.foldl collect_movies_summary_step m) =
      summaryResult (alookup mid m) mid (summaryObsFor mid l) := by
  induction l generalizing m with
  | nil =>
    cases h : alookup mid m <;>
      simp [summaryObsFor, summaryResult, foldMergeSummary, h]
  | cons o l ih =>
    rw [List.foldl_cons, ih]
    cases hk : summaryKeyVal o with
    | none =>
      have hstep : collect_movies_summary_step m o = m := by
        simp [collect_movies_summary_step, hk]
      have hobs : summaryObsFor mid (o :: l) = summaryObsFor mid l := by
        simp [summaryObsFor, hk]
      rw [hstep, hobs]
    | some ks =>
      obtain ⟨k, s⟩ := ks
      by_cases hkm : k = mid
      · subst hkm
        have hstep : collect_movies_summary_step m o =
            upsert k (fun r => { r with summary := fillField r.summary (some s) })
              ⟨k, none, none, none, none, some s⟩ m := by
          simp [collect_movies_summary_step, hk]
        have hobs : summaryObsFor k (o :: l) = s :: summaryObsFor k l := by
          simp [summaryObsFor, hk]
        rw [hstep, hobs, alookup_upsert_self, summaryResult_push]
        cases alookup k m <;> rfl
      · have hstep : collect_movies_summary_step m o =
            upsert k (fun r => { r with summary := fillField r.summary (some s) })
              ⟨k, none, none, none, none, some s⟩ m := by
          simp [collect_movies_summary_step, hk]
        have hobs : summaryObsFor mid (o :: l) = summaryObsFor mid l := by
          simp [summaryObsFor, hk, hkm]
        have hne : mid ≠ k := fun hh => hkm hh.symm
        rw [hstep, hobs, alookup_upsert_ne hne]

/-- Field-by-field description of the basic-stream fold. -/
theorem foldMergeBasic_fields (os : List MovieBasicObj) (r : MovieRec) :
    foldMergeBasic r os =
      ⟨r.movie_douban_id,
        fillList r.title (os.map (fun o => normalize_str o.title)),
        fillList r.image_url (os.map (fun o => normalize_str o.image_url)),
        fillList r.release_date (os.map (fun o => normalize_str o.release_date)),
        fillList r.runtime_minutes (os.map runtimeVal),
        r.summary⟩ := by
  induction os generalizing r with
  | nil => rfl
  | cons o os ih =>
    have h1 : foldMergeBasic r (o :: os) = foldMergeBasic (mergeMovieBasic r o) os := rfl
    rw [h1, ih]
    rfl

/-- Field-by-field description of the summary-stream fold. -/
theorem foldMergeSummary_fields (ss : List String) (r : MovieRec) :
    foldMergeSummary r ss = { r with summary := fillList r.summary (ss.map some) } := by
  induction ss generalizing r with
  | nil => rfl
  | cons s ss ih =>
    have h1 : foldMergeSummary r (s :: ss) =
        foldMergeSummary { r with summary := fillField r.summary (some s) } ss := rfl
    rw [h1, ih]
    rfl

/-- The non-empty value held by field `f` of the record collected for `mid`
(`none` when the key is absent or the field is `None`/empty). -/
def movieField (f : MovieRec → Option String) (m : List (String × MovieRec))
    (mid : String) : Option String :=
  match alookup mid m with
  | none => none
  | some r => truthyN (f r)

/-- Every summary observation delivered by `summaryKeyVal` is non-empty. -/
theorem summaryObsFor_ne_empty {mid : String} {l : List MovieSummaryObj} {s : String}
    (h : s ∈ summaryObsFor mid l) : s ≠ "" := by
  rcases List.mem_filterMap.1 h with ⟨o, _, ho⟩
  revert ho
  cases hk : summaryKeyVal o with
  | none => intro ho; cases ho
  | some ks =>
    obtain ⟨k, s'⟩ := ks
    intro ho
    by_cases hkm : k = mid
    · simp only [hkm, if_pos rfl] at ho
      cases ho
      revert hk
      unfold summaryKeyVal
      cases normalize_str o.movie_douban_id with
      | none => intro hk; cases hk
      | some mid' =>
        by_cases hm : mid' = ""
        · simp [hm]
        · cases hs : sanitize_text_for_csv o.summary with
          | none => simp [hm, hs]
          | some t =>
            by_cases ht : t = "" <;> simp [hm, hs, ht]
            intro h1 h2
            subst h2
            exact ht
    · simp [hkm] at ho

theorem findSome?_cons_oOr {α : Type} (f : α → Option String) (x : α) (l : List α) :
    ((x :: l).findSome? f) = oOr (f x) (l.findSome? f) := by
  rw [List.findSome?_cons]
  cases f x <;> rfl

/-- Generic first-non-empty-wins law for a basic-stream scalar field of the
movie collector. -/
theorem movieField_basic_law
    (f : MovieRec → Option String) (g : MovieBasicObj → Option String)
    (hmerge : ∀ r o, f (mergeMovieBasic r o) = fillField (f r) (g o))
    (hinit : ∀ mid o, f (initMovieBasic mid o) = g o)
    (hsummerge : ∀ r s, f { r with summary := fillField r.summary (some s) } = f r)
    (hsuminit : ∀ mid s, f (⟨mid, none, none, none, none, some s⟩ : MovieRec) = none)
    (basics : List MovieBasicObj) (summaries : List MovieSummaryObj) (mid : String) :
    movieField f (collect_movies basics summaries) mid =
      (movieBasicObsFor mid basics).findSome? (fun o => truthyN (g o)) := by
  have hfoldb : ∀ os r, f (foldMergeBasic r os) = fillList (f r) (os.map g) := by
    intro os
    induction os with
    | nil => intro r; rfl
    | cons o os ih =>
      intro r
      have h1 : foldMergeBasic r (o :: os) = foldMergeBasic (mergeMovieBasic r o) os := rfl
      have h2 : fillList (f r) ((o :: os).map g) =
          fillList (fillField (f r) (g o)) (os.map g) := rfl
      rw [h1, ih, hmerge, h2]
  have hfolds : ∀ ss r, f (foldMergeSummary r ss) = f r := by
    intro ss
    induction ss with
    | nil => intro r; rfl
    | cons s ss ih =>
      intro r
      have h1 : foldMergeSummary r (s :: ss) =
          foldMergeSummary { r with summary := fillField r.summary (some s) } ss := rfl
      rw [h1, ih, hsummerge]
  unfold movieField collect_movies
  rw [alookup_foldl_summary, alookup_foldl_basic]
  have halo : alookup mid ([] : List (String × MovieRec)) = none := rfl
  rw [halo]
  cases hos : movieBasicObsFor mid basics with
  | nil =>
    cases hss : summaryObsFor mid summaries with
    | nil => rfl
    | cons s ss =>
      show truthyN (f (foldMergeSummary ⟨mid, none, none, none, none, some s⟩ ss)) = none
      rw [hfolds, hsuminit]
      rfl
  | cons o os =>
    show truthyN (f (foldMergeSummary (foldMergeBasic (initMovieBasic mid o) os)
      (summaryObsFor mid summaries))) = _
    rw [hfolds, hfoldb, hinit, truthyN_fillList, findSome?_cons_oOr]
    have hmap : (os.map g).findSome? truthyN = os.findSome? (fun o => truthyN (g o)) := by
      rw [List.findSome?_map]
      rfl
    rw [hmap]

/-- `findSome? truthyN` over a list of non-empty strings is its head. -/
theorem findSome?_truthyN_of_ne_empty {ss : List String}
    (h : ∀ s ∈ ss, s ≠ "") :
    (ss.map some).findSome? truthyN = ss.head? := by
  cases ss with
  | nil => rfl
  | cons s ss =>
    have hs : s ≠ "" := h s (List.mem_cons_self _ _)
    have h1 : truthyN (some s) = some s := by
      simp [truthyN, pyTruthy_some, hs]
    simp [List.findSome?_cons, h1]

/-- First-non-empty-wins law for the summary field of the movie collector. -/
theorem movieField_summary_law
    (basics : List MovieBasicObj) (summaries : List MovieSummaryObj) (mid : String) :
    movieField MovieRec.summary (collect_movies basics summaries) mid =
      (summaryObsFor mid summaries).head? := by
  have hfoldsum : ∀ ss r, (foldMergeSummary r ss).summary =
      fillList r.summary (ss.map some) := by
    intro ss r
    rw [foldMergeSummary_fields]
  have hfoldb : ∀ os r, (foldMergeBasic r os).summary = r.summary := by
    intro os r
    rw [foldMergeBasic_fields]
  have hne : ∀ s ∈ summaryObsFor mid summaries, s ≠ "" := by
    intro s hsm
    exact summaryObsFor_ne_empty hsm
  unfold movieField collect_movies
  rw [alookup_foldl_summary, alookup_foldl_basic]
  have halo : alookup mid ([] : List (String × MovieRec)) = none := rfl
  rw [halo]
  cases hos : movieBasicObsFor mid basics with
  | nil =>
    cases hss : summaryObsFor mid summaries with
    | nil => rfl
    | cons s ss =>
      have hs : s ≠ "" := by
        have := hne s
        rw [hss] at this
        exact this (List.mem_cons_self _ _)
      show truthyN ((foldMergeSummary ⟨mid, none, none, none, none, some s⟩ ss).summary)
        = some s
      rw [hfoldsum, truthyN_fillList]
      have h1 : truthyN (some s) = some s := by simp [truthyN, pyTruthy_some, hs]
      show oOr (truthyN (some s)) ((ss.map some).findSome? truthyN) = some s
      rw [h1]
      rfl
  | cons o os =>
    show truthyN ((foldMergeSummary (foldMergeBasic (initMovieBasic mid o) os)
      (summaryObsFor mid summaries)).summary) = _
    rw [hfoldsum, hfoldb]
    show truthyN (fillList none ((summaryObsFor mid summaries).map some)) = _
    rw [truthyN_fillList]
    show oOr none (((summaryObsFor mid summaries).map some).findSome? truthyN) = _
    rw [findSome?_truthyN_of_ne_empty hne]
    rfl

/-! ## etl/03 `collect_persons` -/

/-- One line of `person_details_fixed.jsonl` / `person_details.jsonl`. -/
structure PersonDetailObj where
  person_douban_id : Option String
  name : Option String
  name_cn : Option String
  avatar_url : Option String
  sex : Option String
  birth_date : Option String
  death_date : Option String
  birth_place_raw : Option String
  birth_region : Option String
  imdb_id : Option String
deriving DecidableEq, Repr

/-- The natural key a person-detail record contributes, if acceptable. -/
def personKey (o : PersonDetailObj) : Option String :=
  match normalize_str o.person_douban_id with
  | none => none
  | some pid => if pid = "" then none else some pid

/-- `raw_detail_name = obj.get("name")`, falling back to `name_cn` only when
`name` is `None` (not when it is empty), then normalized. -/
def detailName (o : PersonDetailObj) : Option String :=
  match o.name with
  | none => normalize_str o.name_cn
  | some s => normalize_str (some s)

/-- `normalize_str(seed_names.get(pid)) if pid in seed_names else None`. -/
def seedNameFor (seed : List (String × String)) (pid : String) : Option String :=
  match alookup pid seed with
  | some n => normalize_str (some n)
  | none => none

/-- `name = seed_name or detail_name`: the display-name value observed by one
person-detail record, with the seed-list name taking precedence. -/
def personNameObs (seed : List (String × String)) (pid : String)
    (o : PersonDetailObj) : Option String :=
  pyOr (seedNameFor seed pid) (detailName o)

/-- The merge applied to an existing person record by one detail line. -/
def mergePerson (seed : List (String × String)) (pid : String) (r : PersonRec)
    (o : PersonDetailObj) : PersonRec :=
  { r with
    name := fillField r.name (personNameObs seed pid o)
    avatar_url := fillField r.avatar_url (normalize_str o.avatar_url)
    sex := fillField r.sex (normalize_str o.sex)
    birth_date := fillField r.birth_date (normalize_str o.birth_date)
    death_date := fillField r.death_date (normalize_str o.death_date)
    birth_place_raw := fillField r.birth_place_raw (normalize_str o.birth_place_raw)
    birth_region := fillField r.birth_region (normalize_str o.birth_region)
    imdb_id := fillField r.imdb_id (normalize_str o.imdb_id) }

/-- The record created on first sighting of a person. -/
def initPerson (seed : List (String × String)) (pid : String)
    (o : PersonDetailObj) : PersonRec :=
  ⟨pid, personNameObs seed pid o, normalize_str o.avatar_url, normalize_str o.sex,
    normalize_str o.birth_date, normalize_str o.death_date,
    normalize_str o.birth_place_raw, normalize_str o.birth_region,
    normalize_str o.imdb_id⟩

/-- One iteration of the `collect_persons` loop. -/
def collect_persons_step (seed : List (String × String))
    (m : List (String × PersonRec)) (o : PersonDetailObj) :
    List (String × PersonRec) :=
  match personKey o with
  | none => m
  | some pid => upsert pid (fun r => mergePerson seed pid r o) (initPerson seed pid o) m

/-- `collect_persons` of etl/03. -/
def collect_persons (seed : List (String × String)) (details : List PersonDetailObj) :
    List (String × PersonRec) :=
  details.foldl (collect_persons_step seed) []

/-- The detail observations contributing to the natural key `pid`. -/
def personObsFor (pid : String) (l : List PersonDetailObj) : List PersonDetailObj :=
  l.filter (fun o => personKey o = some pid)

/-- Folding the detail merges over an existing record. -/
def foldMergePerson (seed : List (String × String)) (pid : String) (r : PersonRec)
    (os : List PersonDetailObj) : PersonRec :=
  os.foldl (mergePerson seed pid) r

/-- State of one map entry after folding the detail stream. -/
def personResult (seed : List (String × String)) (cur : Option PersonRec)
    (pid : String) (os : List PersonDetailObj) : Option PersonRec :=
  match cur, os with
  | some r, os => some (foldMergePerson seed pid r os)
  | none, [] => none
  | none, o :: os => some (foldMergePerson seed pid (initPerson seed pid o) os)

theorem personResult_push (seed : List (String × String)) (cur : Option PersonRec)
    (pid : String) (o : PersonDetailObj) (os : List PersonDetailObj) :
    personResult seed cur pid (o :: os) =
      personResult seed
        (some (match cur with
          | some r => mergePerson seed pid r o
          | none => initPerson seed pid o)) pid os := by
  cases cur <;> rfl

theorem alookup_foldl_person (seed : List (String × String))
    (l : List PersonDetailObj) (m : List (String × PersonRec)) (pid : String) :
    alookup pid (l.foldl (collect_persons_step seed) m) =
      personResult seed (alookup pid m) pid (personObsFor pid l) := by
  induction l generalizing m with
  | nil =>
    cases h : alookup pid m <;>
      simp [personObsFor, personResult, foldMergePerson, h]
  | cons o l ih =>
    rw [List.foldl_cons, ih]
    cases hk : personKey o with
    | none =>
      have hstep : collect_persons_step seed m o = m := by
        simp [collect_persons_step, hk]
      have hobs : personObsFor pid (o :: l) = personObsFor pid l := by
        simp [personObsFor, hk]
      rw [hstep, hobs]
    | some k =>
      by_cases hkm : k = pid
      · subst hkm
        have hstep : collect_persons_step seed m o =
            upsert k (fun r => mergePerson seed k r o) (initPerson seed k o) m := by
          simp [collect_persons_step, hk]
        have hobs : personObsFor k (o :: l) = o :: personObsFor k l := by
          simp [personObsFor, hk]
        rw [hstep, hobs, alookup_upsert_self, personResult_push]
        cases alookup k m <;> rfl
      · have hstep : collect_persons_step seed m o =
            upsert k (fun r => mergePerson seed k r o) (initPerson seed k o) m := by
          simp [collect_persons_step, hk]
        have hobs : personObsFor pid (o :: l) = personObsFor pid l := by
          simp [personObsFor, hk, hkm]
        have hne : pid ≠ k := fun hh => hkm hh.symm
        rw [hstep, hobs, alookup_upsert_ne hne]

/-- The non-empty value held by field `f` of the person collected for `pid`. -/
def personField (f : PersonRec → Option String) (m : List (String × PersonRec))
    (pid : String) : Option String :=
  match alookup pid m with
  | none => none
  | some r => truthyN (f r)

/-- Generic first-non-empty-wins law for a scalar field of the person
collector. -/
theorem personField_law (seed : List (String × String))
    (f : PersonRec → Option String) (g : String → PersonDetailObj → Option String)
    (hmerge : ∀ pid r o, f (mergePerson seed pid r o) = fillField (f r) (g pid o))
    (hinit : ∀ pid o, f (initPerson seed pid o) = g pid o)
    (details : List PersonDetailObj) (pid : String) :
    personField f (collect_persons seed details) pid =
      (personObsFor pid details).findSome? (fun o => truthyN (g pid o)) := by
  have hfold : ∀ os r, f (foldMergePerson seed pid r os) = fillList (f r) (os.map (g pid)) := by
    intro os
    induction os with
    | nil => intro r; rfl
    | cons o os ih =>
      intro r
      have h1 : foldMergePerson seed pid r (o :: os) =
          foldMergePerson seed pid (mergePerson seed pid r o) os := rfl
      have h2 : fillList (f r) ((o :: os).map (g pid)) =
          fillList (fillField (f r) (g pid o)) (os.map (g pid)) := rfl
      rw [h1, ih, hmerge, h2]
  unfold personField collect_persons
  rw [alookup_foldl_person]
  have halo : alookup pid ([] : List (String × PersonRec)) = none := rfl
  rw [halo]
  cases hos : personObsFor pid details with
  | nil => rfl
  | cons o os =>
    show truthyN (f (foldMergePerson seed pid (initPerson seed pid o) os)) = _
    rw [hfold, hinit, truthyN_fillList, findSome?_cons_oOr]
    have hmap : (os.map (g pid)).findSome? truthyN =
        os.findSome? (fun o => truthyN (g pid o)) := by
      rw [List.findSome?_map]
      rfl
    rw [hmap]

/-- C4: in every merged Movie and Person record, each scalar field holds the
first non-empty value observed for that natural key in stream order (through
Python truthiness, `truthyN`): the field as published equals `findSome?` of the
per-observation values, so a populated field is never overwritten by any later
observation, empty or not.  For a movie the observed values are the normalized
basic-stream fields and the sanitized summaries; for a person they are the
normalized detail fields, the display name being the seed-list name with the
detail name as fallback. -/
theorem c4_first_nonempty_wins
    (basics : List MovieBasicObj) (summaries : List MovieSummaryObj)
    (seed : List (String × String)) (details : List PersonDetailObj)
    (mid pid : String) :
    movieField MovieRec.title (collect_movies basics summaries) mid =
      (movieBasicObsFor mid basics).findSome?
        (fun o => truthyN (normalize_str o.title)) ∧
    movieField MovieRec.image_url (collect_movies basics summaries) mid =
      (movieBasicObsFor mid basics).findSome?
        (fun o => truthyN (normalize_str o.image_url)) ∧
    movieField MovieRec.release_date (collect_movies basics summaries) mid =
      (movieBasicObsFor mid basics).findSome?
        (fun o => truthyN (normalize_str o.release_date)) ∧
    movieField MovieRec.runtime_minutes (collect_movies basics summaries) mid =
      (movieBasicObsFor mid basics).findSome? (fun o => truthyN (runtimeVal o)) ∧
    movieField MovieRec.summary (collect_movies basics summaries) mid =
      (summaryObsFor mid summaries).head? ∧
    personField PersonRec.name (collect_persons seed details) pid =
      (personObsFor pid details).findSome?
        (fun o => truthyN (personNameObs seed pid o)) ∧
    personField PersonRec.avatar_url (collect_persons seed details) pid =
      (personObsFor pid details).findSome?
        (fun o => truthyN (normalize_str o.avatar_url)) ∧
    personField PersonRec.sex (collect_persons seed details) pid =
      (personObsFor pid details).findSome? (fun o => truthyN (normalize_str o.sex)) ∧
    personField PersonRec.birth_date (collect_persons seed details) pid =
      (personObsFor pid details).findSome?
        (fun o => truthyN (normalize_str o.birth_date)) ∧
    personField PersonRec.death_date (collect_persons seed details) pid =
      (personObsFor pid details).findSome?
        (fun o => truthyN (normalize_str o.death_date)) ∧
    personField PersonRec.birth_place_raw (collect_persons seed details) pid =
      (personObsFor pid details).findSome?
        (fun o => truthyN (normalize_str o.birth_place_raw)) ∧
    personField PersonRec.birth_region (collect_persons seed details) pid =
      (personObsFor pid details).findSome?
        (fun o => truthyN (normalize_str o.birth_region)) ∧
    personField PersonRec.imdb_id (collect_persons seed details) pid =
      (personObsFor pid details).findSome?
        (fun o => truthyN (normalize_str o.imdb_id)) :=
  ⟨movieField_basic_law MovieRec.title (fun o => normalize_str o.title)
      (fun _ _ => rfl) (fun _ _ => rfl) (fun _ _ => rfl) (fun _ _ => rfl)
      basics summaries mid,
   movieField_basic_law MovieRec.image_url (fun o => normalize_str o.image_url)
      (fun _ _ => rfl) (fun _ _ => rfl) (fun _ _ => rfl) (fun _ _ => rfl)
      basics summaries mid,
   movieField_basic_law MovieRec.release_date (fun o => normalize_str o.release_date)
      (fun _ _ => rfl) (fun _ _ => rfl) (fun _ _ => rfl) (fun _ _ => rfl)
      basics summaries mid,
   movieField_basic_law MovieRec.runtime_minutes runtimeVal
      (fun _ _ => rfl) (fun _ _ => rfl) (fun _ _ => rfl) (fun _ _ => rfl)
      basics summaries mid,
   movieField_summary_law basics summaries mid,
   personField_law seed PersonRec.name (fun pid o => personNameObs seed pid o)
      (fun _ _ _ => rfl) (fun _ _ => rfl) details pid,
   personField_law seed PersonRec.avatar_url (fun _ o => normalize_str o.avatar_url)
      (fun _ _ _ => rfl) (fun _ _ => rfl) details pid,
   personField_law seed PersonRec.sex (fun _ o => normalize_str o.sex)
      (fun _ _ _ => rfl) (fun _ _ => rfl) details pid,
   personField_law seed PersonRec.birth_date (fun _ o => normalize_str o.birth_date)
      (fun _ _ _ => rfl) (fun _ _ => rfl) details pid,
   personField_law seed PersonRec.death_date (fun _ o => normalize_str o.death_date)
      (fun _ _ _ => rfl) (fun _ _ => rfl) details pid,
   personField_law seed PersonRec.birth_place_raw
      (fun _ o => normalize_str o.birth_place_raw)
      (fun _ _ _ => rfl) (fun _ _ => rfl) details pid,
   personField_law seed PersonRec.birth_region (fun _ o => normalize_str o.birth_region)
      (fun _ _ _ => rfl) (fun _ _ => rfl) details pid,
   personField_law seed PersonRec.imdb_id (fun _ o => normalize_str o.imdb_id)
      (fun _ _ _ => rfl) (fun _ _ => rfl) details pid⟩

/-! ## Generic keep-first-maximum dedup fold (etl/10 and etl/11) -/

section DedupFold

variable {α K : Type} [DecidableEq K] (key : α → K) (lt : α → α → Bool)

/-- `foldl` of the `if replace: dedup_map[key] = new_row` loop body for the
observations of one key. -/
def pickFold (c : α) (cs : List α) : α :=
  cs.foldl (fun b r => if lt b r then r else b) c

/-- The dedup map update performed for a stream of already-validated rows. -/
def dedupFold (items : List α) (m : List (K × α)) : List (K × α) :=
  items.foldl (fun m r => upsert (key r) (fun old => if lt old r then r else old) r m) m

/-- One key's dedup outcome. -/
def bestResult (cur : Option α) (cs : List α) : Option α :=
  match cur, cs with
  | some b, cs => some (pickFold lt b cs)
  | none, [] => none
  | none, c :: cs => some (pickFold lt c cs)

theorem bestResult_push (cur : Option α) (c : α) (cs : List α) :
    bestResult lt cur (c :: cs) =
      bestResult lt
        (some (match cur with
          | some b => if lt b c then c else b
          | none => c)) cs := by
  cases cur <;> rfl

theorem alookup_dedupFold (items : List α) (m : List (K × α)) (k : K) :
    alookup k (dedupFold key lt items m) =
      bestResult lt (alookup k m) (items.filter (fun r => key r = k)) := by
  induction items generalizing m with
  | nil =>
    cases h : alookup k m <;> simp [dedupFold, bestResult, pickFold, h]
  | cons r items ih =>
    have h1 : dedupFold key lt (r :: items) m =
        dedupFold key lt items
          (upsert (key r) (fun old => if lt old r then r else old) r m) := rfl
    rw [h1, ih]
    by_cases hk : key r = k
    · subst hk
      have hobs : (r :: items).filter (fun x => key x = key r) =
          r :: items.filter (fun x => key x = key r) := by
        simp [List.filter_cons]
      rw [hobs, alookup_upsert_self, bestResult_push]
    · have hobs : (r :: items).filter (fun x => key x = k) =
          items.filter (fun x => key x = k) := by
        simp [List.filter_cons, hk]
      have hne : k ≠ key r := fun hh => hk hh.symm
      rw [hobs, alookup_upsert_ne hne]

/-- The fold keeps the first row that is maximal for the strict comparison:
the list of candidates splits as `pre ++ winner :: post` where every earlier
row is strictly below the winner and no later row beats it. -/
theorem pickFold_spec
    (hTrans : ∀ a b c, lt a b = true → lt b c = true → lt a c = true)
    (hCross : ∀ x y z, lt x z = true → lt x y = false → lt y z = true) :
    ∀ (cs : List α) (c : α), ∃ pre post,
      c :: cs = pre ++ pickFold lt c cs :: post ∧
      (∀ r ∈ pre, lt r (pickFold lt c cs) = true) ∧
      (∀ r ∈ post, lt (pickFold lt c cs) r = false) := by
  intro cs
  induction cs with
  | nil =>
    intro c
    exact ⟨[], [], rfl, by simp, by simp⟩
  | cons r cs ih =>
    intro c
    have hstep : pickFold lt c (r :: cs) = pickFold lt (if lt c r then r else c) cs := rfl
    cases hcr : lt c r with
    | true =>
      have hres : pickFold lt c (r :: cs) = pickFold lt r cs := by
        rw [hstep, hcr]
        simp
      rcases ih r with ⟨pre', post', hdec, hpre, hpost⟩
      refine ⟨c :: pre', post', ?_, ?_, ?_⟩
      · rw [hres]
        simpa using congrArg (List.cons c) hdec
      · intro x hx
        rcases List.mem_cons.1 hx with rfl | hx'
        · rw [hres]
          cases pre' with
          | nil =>
            have : r = pickFold lt r cs := by
              have := hdec
              simp at this
              exact this.1
            rw [← this]
            exact hcr
          | cons p pre'' =>
            have hp : p = r := by
              have := hdec
              simp at this
              exact this.1.symm
            have hr : lt r (pickFold lt r cs) = true := by
              apply hpre
              rw [← hp]
              exact List.mem_cons_self _ _
            exact hTrans _ _ _ hcr hr
        · rw [hres]
          exact hpre x hx'
      · intro x hx
        rw [hres]
        exact hpost x hx
    | false =>
      have hres : pickFold lt c (r :: cs) = pickFold lt c cs := by
        rw [hstep, hcr]
        simp
      rcases ih c with ⟨pre', post', hdec, hpre, hpost⟩
      cases pre' with
      | nil =>
        have hc : pickFold lt c cs = c ∧ cs = post' := by
          have := hdec
          simp at this
          exact ⟨this.1.symm, this.2⟩
        refine ⟨[], r :: cs, ?_, by simp, ?_⟩
        · rw [hres, hc.1]
          rfl
        · intro x hx
          rcases List.mem_cons.1 hx with rfl | hx'
          · rw [hres, hc.1]
            exact hcr
          · rw [hres]
            rw [hc.2] at hx'
            exact hpost x hx'
      | cons p pre'' =>
        have hp : p = c ∧ cs = pre'' ++ pickFold lt c cs :: post' := by
          have := hdec
          simp at this
          exact ⟨this.1.symm, this.2⟩
        have hcres : lt c (pickFold lt c cs) = true := by
          apply hpre
          rw [hp.1]
          exact List.mem_cons_self _ _
        refine ⟨c :: r :: pre'', post', ?_, ?_, ?_⟩
        · rw [hres]
          have : c :: r :: cs = c :: r :: (pre'' ++ pickFold lt c cs :: post') := by
            rw [← hp.2]
          simpa using this
        · intro x hx
          rcases List.mem_cons.1 hx with rfl | hx'
          · rw [hres]; exact hcres
          · rcases List.mem_cons.1 hx' with rfl | hx''
            · rw [hres]
              exact hCross _ _ _ hcres hcr
            · rw [hres]
              apply hpre
              rw [hp.1]
              exact List.mem_cons_of_mem _ hx''
        · intro x hx
          rw [hres]
          exact hpost x hx

/-- A member of a pick-update `upsert` is either an old entry or carries the
inserted row's value (possibly at an existing key). -/
theorem mem_upsert_pick {kk : K} {rr : α} {p : K × α} :
    ∀ {m : List (K × α)},
      p ∈ upsert kk (fun old => if lt old rr then rr else old) rr m →
      p.2 = rr ∨ p ∈ m
  | [], hp => by
    simp only [upsert, List.mem_singleton] at hp
    exact Or.inl (by rw [hp])
  | (k₀, v) :: rest, hp => by
    by_cases h₀ : k₀ = kk
    · rw [upsert, if_pos h₀] at hp
      rcases List.mem_cons.1 hp with hp' | hp'
      · cases hlt : lt v rr
        · refine Or.inr (List.mem_cons.2 (Or.inl ?_))
          rw [hp']
          simp [hlt]
        · refine Or.inl ?_
          rw [hp']
          simp [hlt]
      · exact Or.inr (List.mem_cons_of_mem _ hp')
    · rw [upsert, if_neg h₀] at hp
      rcases List.mem_cons.1 hp with hp' | hp'
      · exact Or.inr (List.mem_cons.2 (Or.inl hp'))
      · rcases mem_upsert_pick hp' with h' | h'
        · exact Or.inl h'
        · exact Or.inr (List.mem_cons_of_mem _ h')

/-- Key invariant: every entry of the dedup map built from validated rows maps
the key of its own row. -/
theorem dedupFold_key_invariant (items : List α) (m : List (K × α))
    (hm : ∀ p ∈ m, key p.2 = p.1) :
    ∀ p ∈ dedupFold key lt items m, key p.2 = p.1 := by
  induction items generalizing m with
  | nil => exact hm
  | cons r items ih =>
    have h1 : dedupFold key lt (r :: items) m =
        dedupFold key lt items
          (upsert (key r) (fun old => if lt old r then r else old) r m) := rfl
    rw [h1]
    apply ih
    intro p hp
    rcases mem_upsert_pick lt hp with hval | hval
    · rcases mem_upsert hp with hmem | hkey
      · exact hm p hmem
      · rw [hval, hkey]
    · exact hm p hval

/-- The dedup map keeps its keys `Nodup`. -/
theorem dedupFold_keys_nodup (items : List α) (m : List (K × α))
    (hm : (m.map Prod.fst).Nodup) :
    ((dedupFold key lt items m).map Prod.fst).Nodup := by
  induction items generalizing m with
  | nil => exact hm
  | cons r items ih =>
    have h1 : dedupFold key lt (r :: items) m =
        dedupFold key lt items
          (upsert (key r) (fun old => if lt old r then r else old) r m) := rfl
    rw [h1]
    exact ih _ (nodup_map_fst_upsert _ _ _ hm)

/-- Values of the dedup map satisfy any property closed under picking that
holds for all inserted rows. -/
theorem dedupFold_values (P : α → Prop) (items : List α) (m : List (K × α))
    (hm : ∀ p ∈ m, P p.2) (hitems : ∀ r ∈ items, P r) :
    ∀ p ∈ dedupFold key lt items m, P p.2 := by
  induction items generalizing m with
  | nil => exact hm
  | cons r items ih =>
    have h1 : dedupFold key lt (r :: items) m =
        dedupFold key lt items
          (upsert (key r) (fun old => if lt old r then r else old) r m) := rfl
    rw [h1]
    refine ih _ ?_ (fun x hx => hitems x (List.mem_cons_of_mem _ hx))
    have hr : P r := hitems r (List.mem_cons_self _ _)
    intro p hp
    rcases mem_upsert_pick lt hp with hval | hval
    · rw [hval]
      exact hr
    · exact hm p hval

end DedupFold

/-! ## Python `int(...)` (ASCII semantics, digits with single internal
underscores, optional sign, as accepted for the pipeline's own CSV values) -/

/-- Numeric value of an ASCII digit. -/
def digitVal (c : Char) : Nat := c.toNat - '0'.toNat

/-- Remaining digits of an integer literal, allowing a single `_` between
digit groups. -/
def pyDigitsAux : Nat → List Char → Option Nat
  | acc, [] => some acc
  | acc, c :: cs =>
    if c = '_' then
      match cs with
      | c' :: cs' =>
        if c'.isDigit then pyDigitsAux (acc * 10 + digitVal c') cs' else none
      | [] => none
    else if c.isDigit then pyDigitsAux (acc * 10 + digitVal c) cs
    else none

/-- Unsigned integer literal: at least one digit, starting with a digit. -/
def pyParseUnsigned : List Char → Option Nat
  | [] => none
  | c :: cs => if c.isDigit then pyDigitsAux (digitVal c) cs else none

/-- Python `int(s)` on a string: strip whitespace, optional sign, digits. -/
def pyInt (s : String) : Option Int :=
  match (pyStrip s).data with
  | '+' :: rest => (pyParseUnsigned rest).map (fun n => (n : Int))
  | '-' :: rest => (pyParseUnsigned rest).map (fun n => -(n : Int))
  | l => (pyParseUnsigned l).map (fun n => (n : Int))

/-! ## etl/10 `build_movie_ratings_for_sql` -/

/-- One data row of `movie_ratings.csv` as `csv.DictReader` delivers it
(`none` models a missing column). -/
structure RatingCsvRow where
  movie_id : Option String
  user_id : Option String
  rating : Option String
  created_at : Option String
  review : Option String
deriving DecidableEq, Repr

/-- A published rating row (the `new_row` dict of the script). -/
structure RatingRow where
  user_id : Int
  movie_id : Int
  rating : Int
  created_at : String
  review : String
deriving DecidableEq, Repr

/-- `clean_review` of etl/10: newlines to spaces, whitespace runs collapsed,
truncated to `maxLen` characters. -/
def clean_review (text : Option String) (maxLen : Nat) : String :=
  let flat : String :=
    ⟨(text.getD "").data.map (fun c => if c = '\r' ∨ c = '\n' then ' ' else c)⟩
  ⟨(pyJoinSplit flat).data.take maxLen⟩

/-- The validation part of the etl/10 loop body: `none` exactly when the row is
skipped (missing/non-integer ids or rating, rating outside `[0, 10]`, empty
`created_at`). -/
def parse_rating_row (row : RatingCsvRow) : Option RatingRow :=
  if !pyTruthy row.movie_id || !pyTruthy row.user_id || row.rating.isNone then none
  else
    match pyInt (row.movie_id.getD ""), pyInt (row.user_id.getD ""),
        pyInt (row.rating.getD "") with
    | some movie_id, some user_id, some rating =>
      if rating < 0 || 10 < rating then none
      else
        let created := pyStrip (row.created_at.getD "")
        if created = "" then none
        else some ⟨user_id, movie_id, rating, created, clean_review row.review 200⟩
    | _, _, _ => none

/-- The replace test of etl/10: `if new_ts > old_ts: dedup_map[key] = new_row`. -/
def rating_lt (old new : RatingRow) : Bool :=
  pyStrLtB old.created_at new.created_at

/-- The `(user_id, movie_id)` dedup key. -/
def ratingKey (r : RatingRow) : Int × Int := (r.user_id, r.movie_id)

/-- The dedup map built by `build_movie_ratings_for_sql`; the published rows
are its values in insertion order. -/
def build_movie_ratings_for_sql (rows : List RatingCsvRow) :
    List ((Int × Int) × RatingRow) :=
  rows.foldl
    (fun m row =>
      match parse_rating_row row with
      | none => m
      | some r =>
        upsert (ratingKey r) (fun old => if rating_lt old r then r else old) r m)
    []

/-- The validated observations for one `(user_id, movie_id)` pair, in stream
order. -/
def ratingCandidates (k : Int × Int) (rows : List RatingCsvRow) : List RatingRow :=
  (rows.filterMap parse_rating_row).filter (fun r => ratingKey r = k)

theorem build_movie_ratings_eq_dedupFold (rows : List RatingCsvRow) :
    ∀ m, rows.foldl
      (fun m row =>
        match parse_rating_row row with
        | none => m
        | some r =>
          upsert (ratingKey r) (fun old => if rating_lt old r then r else old) r m)
      m = dedupFold ratingKey rating_lt (rows.filterMap parse_rating_row) m := by
  induction rows with
  | nil => intro m; rfl
  | cons row rows ih =>
    intro m
    rw [List.foldl_cons]
    cases h : parse_rating_row row with
    | none => simp only [h, List.filterMap_cons, dedupFold]; rw [ih]; rfl
    | some r => simp only [h, List.filterMap_cons, dedupFold]; rw [ih]; rfl

theorem rating_lt_trans (a b c : RatingRow)
    (h₁ : rating_lt a b = true) (h₂ : rating_lt b c = true) :
    rating_lt a c = true :=
  pyStrLt_trans h₁ h₂

theorem rating_lt_cross (x y z : RatingRow)
    (h₁ : rating_lt x z = true) (h₂ : rating_lt x y = false) :
    rating_lt y z = true := by
  rcases pyStrLt_trichotomy y.created_at x.created_at with h | h | h
  · exact pyStrLt_trans h h₁
  · unfold rating_lt
    rw [h]
    exact h₁
  · exact absurd h (by simpa [rating_lt, pyStrLt] using h₂)

/-- C2: the published Rating output has at most one row per
`(user_id, movie_id)` pair, and for a pair with validated observations
`c :: cs` the published row `w` is such that every earlier observation has a
lexicographically smaller `created_at` and no later observation has a greater
one: `w` carries the lexicographically greatest timestamp, and among equal
timestamps the first-seen row is kept. -/
theorem c2_rating_dedup (rows : List RatingCsvRow) (k : Int × Int) (c : RatingRow)
    (cs : List RatingRow) (hc : ratingCandidates k rows = c :: cs) :
    ((build_movie_ratings_for_sql rows).map
      (fun p => (p.2.user_id, p.2.movie_id))).Nodup ∧
    ∃ pre post w,
      alookup k (build_movie_ratings_for_sql rows) = some w ∧
      c :: cs = pre ++ w :: post ∧
      (∀ r ∈ pre, pyStrLt r.created_at w.created_at) ∧
      (∀ r ∈ post, ¬ pyStrLt w.created_at r.created_at) := by
  have hbuild : build_movie_ratings_for_sql rows =
      dedupFold ratingKey rating_lt (rows.filterMap parse_rating_row) [] :=
    build_movie_ratings_eq_dedupFold rows []
  constructor
  · have hinv : ∀ p ∈ build_movie_ratings_for_sql rows, ratingKey p.2 = p.1 := by
      rw [hbuild]
      exact dedupFold_key_invariant ratingKey rating_lt _ [] (by simp)
    have hmap : (build_movie_ratings_for_sql rows).map
        (fun p => (p.2.user_id, p.2.movie_id)) =
        (build_movie_ratings_for_sql rows).map Prod.fst := by
      apply List.map_congr_left
      intro p hp
      exact hinv p hp
    rw [hmap, hbuild]
    exact dedupFold_keys_nodup ratingKey rating_lt _ [] (by simp)
  · have halo : alookup k (build_movie_ratings_for_sql rows) =
        some (pickFold rating_lt c cs) := by
      rw [hbuild, alookup_dedupFold]
      have h0 : alookup k ([] : List ((Int × Int) × RatingRow)) = none := rfl
      rw [h0]
      show bestResult rating_lt none (ratingCandidates k rows) = _
      rw [hc]
      rfl
    rcases pickFold_spec rating_lt rating_lt_trans rating_lt_cross cs c with
      ⟨pre, post, hdec, hpre, hpost⟩
    refine ⟨pre, post, pickFold rating_lt c cs, halo, hdec, ?_, ?_⟩
    · intro r hr
      exact hpre r hr
    · intro r hr
      have := hpost r hr
      simpa [rating_lt, pyStrLt] using this

/-- Witness for `c2_rating_dedup`: the §8 concrete scenario — two raw rows for
the same pair with timestamps 2020 and 2021 yield one row with the 2021
timestamp. -/
theorem c2_rating_dedup_witness :
    ((build_movie_ratings_for_sql
      [⟨some "1", some "2", some "7", some "2020-01-01 10:00:00", some "first"⟩,
       ⟨some "1", some "2", some "9", some "2021-06-01 09:00:00", none⟩]).map
      (fun p => (p.2.user_id, p.2.movie_id))).Nodup ∧
    ∃ pre post w,
      alookup ((2 : Int), (1 : Int)) (build_movie_ratings_for_sql
        [⟨some "1", some "2", some "7", some "2020-01-01 10:00:00", some "first"⟩,
         ⟨some "1", some "2", some "9", some "2021-06-01 09:00:00", none⟩]) = some w ∧
      (⟨2, 1, 7, "2020-01-01 10:00:00", "first"⟩ : RatingRow) ::
        [⟨2, 1, 9, "2021-06-01 09:00:00", ""⟩] = pre ++ w :: post ∧
      (∀ r ∈ pre, pyStrLt r.created_at w.created_at) ∧
      (∀ r ∈ post, ¬ pyStrLt w.created_at r.created_at) :=
  c2_rating_dedup
    [⟨some "1", some "2", some "7", some "2020-01-01 10:00:00", some "first"⟩,
     ⟨some "1", some "2", some "9", some "2021-06-01 09:00:00", none⟩]
    (2, 1) ⟨2, 1, 7, "2020-01-01 10:00:00", "first"⟩
    [⟨2, 1, 9, "2021-06-01 09:00:00", ""⟩] (by decide)

/-! ## etl/11 `build_watching_records_for_sql` -/

/-- ASCII lower-casing (all values reaching `normalize_status` are ASCII). -/
def pyCharLower (c : Char) : Char :=
  if 'A' ≤ c ∧ c ≤ 'Z' then Char.ofNat (c.toNat + 32) else c

def pyLower (s : String) : String := ⟨s.data.map pyCharLower⟩

/-- ASCII upper-casing (for `normalize_star`). -/
def pyCharUpper (c : Char) : Char :=
  if 'a' ≤ c ∧ c ≤ 'z' then Char.ofNat (c.toNat - 32) else c

def pyUpper (s : String) : String := ⟨s.data.map pyCharUpper⟩

/-- `STATUS_PRIORITY.get(s, 0)`. -/
def STATUS_PRIORITY (s : String) : Nat :=
  if s = "wishlist" then 1
  else if s = "watching" then 2
  else if s = "watched" then 3
  else 0

/-- `normalize_status` of etl/11: lower-case, and empty unless in the allowed
set. -/
def normalize_status (s : Option String) : String :=
  match s with
  | none => ""
  | some s =>
    if s = "" then ""
    else
      let t := pyLower (pyStrip s)
      if t = "wishlist" ∨ t = "watching" ∨ t = "watched" then t else ""

/-- `normalize_star` of etl/11. -/
def normalize_star (s : Option String) : String :=
  match s with
  | none => "FALSE"
  | some s =>
    let t := pyUpper (pyStrip s)
    if t = "TRUE" ∨ t = "T" ∨ t = "1" ∨ t = "YES" ∨ t = "Y" then "TRUE" else "FALSE"

/-- One data row of `watching_records.csv`. -/
structure WatchCsvRow where
  movie_id : Option String
  user_id : Option String
  status : Option String
  created_at : Option String
  star : Option String
deriving DecidableEq, Repr

/-- A published watch-record row (the `new_row` dict). -/
structure WatchRow where
  user_id : Int
  movie_id : Int
  star : String
  status : String
  created_at : String
deriving DecidableEq, Repr

/-- The end-of-run state of etl/11: the dedup map plus the printed counters. -/
structure WatchState where
  dedup : List ((Int × Int) × WatchRow)
  total : Nat
  skipped_basic : Nat
  skipped_created_at : Nat
  duplicate_keys : Nat
deriving DecidableEq, Repr

/-- The replace test of etl/11: status priority, then later timestamp, then
starred. -/
def watch_lt (old new : WatchRow) : Bool :=
  if STATUS_PRIORITY old.status < STATUS_PRIORITY new.status then true
  else if STATUS_PRIORITY new.status = STATUS_PRIORITY old.status then
    if pyStrLtB old.created_at new.created_at then true
    else if new.created_at = old.created_at then
      decide (new.star = "TRUE" ∧ old.star ≠ "TRUE")
    else false
  else false

/-- The `(user_id, movie_id)` dedup key. -/
def watchKey (r : WatchRow) : Int × Int := (r.user_id, r.movie_id)

/-- The validation part of the etl/11 loop body: `none` exactly when the row
is skipped. -/
def parse_watch_row (row : WatchCsvRow) : Option WatchRow :=
  if !pyTruthy row.movie_id || !pyTruthy row.user_id then none
  else
    match pyInt (row.movie_id.getD ""), pyInt (row.user_id.getD "") with
    | some movie_id, some user_id =>
      let status := normalize_status row.status
      if status = "" then none
      else
        let created := pyStrip (row.created_at.getD "")
        if created = "" then none
        else some ⟨user_id, movie_id, normalize_star row.star, status, created⟩
    | _, _ => none

/-- One iteration of the etl/11 loop, counters included. -/
def watch_step (st : WatchState) (row : WatchCsvRow) : WatchState :=
  let st := { st with total := st.total + 1 }
  if !pyTruthy row.movie_id || !pyTruthy row.user_id then
    { st with skipped_basic := st.skipped_basic + 1 }
  else
    match pyInt (row.movie_id.getD ""), pyInt (row.user_id.getD "") with
    | some movie_id, some user_id =>
      let status := normalize_status row.status
      if status = "" then { st with skipped_basic := st.skipped_basic + 1 }
      else
        let created := pyStrip (row.created_at.getD "")
        if created = "" then
          { st with skipped_created_at := st.skipped_created_at + 1 }
        else
          let r : WatchRow := ⟨user_id, movie_id, normalize_star row.star, status, created⟩
          let d := upsert (watchKey r) (fun old => if watch_lt old r then r else old) r st.dedup
          match alookup (watchKey r) st.dedup with
          | none => { st with dedup := d }
          | some _ => { st with duplicate_keys := st.duplicate_keys + 1, dedup := d }
    | _, _ => { st with skipped_basic := st.skipped_basic + 1 }

/-- `build_watching_records_for_sql` of etl/11. -/
def build_watching_records_for_sql (rows : List WatchCsvRow) : WatchState :=
  rows.foldl watch_step ⟨[], 0, 0, 0, 0⟩

/-- The validated observations for one pair, in stream order. -/
def watchCandidates (k : Int × Int) (rows : List WatchCsvRow) : List WatchRow :=
  (rows.filterMap parse_watch_row).filter (fun r => watchKey r = k)

theorem watch_step_dedup (st : WatchState) (row : WatchCsvRow) :
    (watch_step st row).dedup =
      match parse_watch_row row with
      | none => st.dedup
      | some r =>
        upsert (watchKey r) (fun old => if watch_lt old r then r else old) r st.dedup := by
  unfold watch_step parse_watch_row
  cases hb : (!pyTruthy row.movie_id || !pyTruthy row.user_id)
  · simp only [hb, Bool.false_eq_true, if_false]
    cases hm : pyInt (row.movie_id.getD "") with
    | none => rfl
    | some movie_id =>
      cases hu : pyInt (row.user_id.getD "") with
      | none => rfl
      | some user_id =>
        by_cases hs : normalize_status row.status = ""
        · simp [hs]
        · by_cases hcr : pyStrip (row.created_at.getD "") = ""
          · simp [hs, hcr]
          · simp only [hs, hcr, if_neg, if_false]
            cases halo : alookup
                (watchKey ⟨user_id, movie_id, normalize_star row.star,
                  normalize_status row.status, pyStrip (row.created_at.getD "")⟩)
                st.dedup <;> simp [halo, hs, hcr]
  · simp [hb]

theorem build_watching_dedup (rows : List WatchCsvRow) :
    ∀ st : WatchState,
      (rows.foldl watch_step st).dedup =
        dedupFold watchKey watch_lt (rows.filterMap parse_watch_row) st.dedup := by
  induction rows with
  | nil => intro st; rfl
  | cons row rows ih =>
    intro st
    rw [List.foldl_cons, ih]
    cases h : parse_watch_row row with
    | none =>
      have hd : (watch_step st row).dedup = st.dedup := by
        rw [watch_step_dedup, h]
      simp only [List.filterMap_cons, h]
      rw [hd]
    | some r =>
      have hd : (watch_step st row).dedup =
          upsert (watchKey r) (fun old => if watch_lt old r then r else old) r st.dedup := by
        rw [watch_step_dedup, h]
      simp only [List.filterMap_cons, h]
      rw [hd]
      rfl

/-- "`b` beats `a`" in the three-level precedence of etl/11: higher status
priority, else later timestamp, else starred over unstarred. -/
def watchBeats (a b : WatchRow) : Prop :=
  STATUS_PRIORITY a.status < STATUS_PRIORITY b.status ∨
    (STATUS_PRIORITY b.status = STATUS_PRIORITY a.status ∧
      (pyStrLt a.created_at b.created_at ∨
        (b.created_at = a.created_at ∧ b.star = "TRUE" ∧ a.star ≠ "TRUE")))

theorem watch_lt_iff (a b : WatchRow) : watch_lt a b = true ↔ watchBeats a b := by
  unfold watch_lt watchBeats
  by_cases h1 : STATUS_PRIORITY a.status < STATUS_PRIORITY b.status
  · simp [h1]
  · by_cases h2 : STATUS_PRIORITY b.status = STATUS_PRIORITY a.status
    · by_cases h3 : pyStrLtB a.created_at b.created_at = true
      · simp [h1, h2, h3, pyStrLt]
      · by_cases h4 : b.created_at = a.created_at
        · simp [h1, h2, h3, h4, pyStrLt]
        · simp [h1, h2, h3, h4, pyStrLt]
    · simp [h1, h2]

/-- The key on which `watchBeats` is a strict order. -/
theorem watchBeats_trichotomy (a b : WatchRow) :
    watchBeats a b ∨
    (STATUS_PRIORITY a.status = STATUS_PRIORITY b.status ∧
      a.created_at = b.created_at ∧ (a.star = "TRUE" ↔ b.star = "TRUE")) ∨
    watchBeats b a := by
  rcases Nat.lt_trichotomy (STATUS_PRIORITY a.status) (STATUS_PRIORITY b.status) with
    hp | hp | hp
  · exact Or.inl (Or.inl hp)
  · rcases pyStrLt_trichotomy a.created_at b.created_at with ht | ht | ht
    · exact Or.inl (Or.inr ⟨hp.symm, Or.inl ht⟩)
    · by_cases hsa : a.star = "TRUE"
      · by_cases hsb : b.star = "TRUE"
        · exact Or.inr (Or.inl ⟨hp, ht, by simp [hsa, hsb]⟩)
        · exact Or.inr (Or.inr (Or.inr ⟨hp, Or.inr ⟨ht, hsa, hsb⟩⟩))
      · by_cases hsb : b.star = "TRUE"
        · exact Or.inl (Or.inr ⟨hp.symm, Or.inr ⟨ht.symm, hsb, hsa⟩⟩)
        · exact Or.inr (Or.inl ⟨hp, ht, by simp [hsa, hsb]⟩)
    · exact Or.inr (Or.inr (Or.inr ⟨hp, Or.inl ht⟩))
  · exact Or.inr (Or.inr (Or.inl hp))

theorem watchBeats_trans {a b c : WatchRow}
    (h₁ : watchBeats a b) (h₂ : watchBeats b c) : watchBeats a c := by
  rcases h₁ with h1 | ⟨h1e, h1r⟩
  · rcases h₂ with h2 | ⟨h2e, h2r⟩
    · exact Or.inl (Nat.lt_trans h1 h2)
    · exact Or.inl (by omega)
  · rcases h₂ with h2 | ⟨h2e, h2r⟩
    · exact Or.inl (by omega)
    · refine Or.inr ⟨by omega, ?_⟩
      rcases h1r with ht1 | ⟨ht1, hs1, hs1'⟩
      · rcases h2r with ht2 | ⟨ht2, _, _⟩
        · exact Or.inl (pyStrLt_trans ht1 ht2)
        · exact Or.inl (ht2 ▸ ht1)
      · rcases h2r with ht2 | ⟨ht2, hs2, hs2'⟩
        · exact Or.inl (ht1 ▸ ht2)
        · exact absurd hs1 hs2'

/-- `watchBeats` is invariant under replacing a row by one with the same
priority, timestamp and star flag. -/
theorem watchBeats_congr {x y z : WatchRow}
    (hp : STATUS_PRIORITY y.status = STATUS_PRIORITY z.status)
    (ht : y.created_at = z.created_at) (hs : y.star = "TRUE" ↔ z.star = "TRUE")
    (h : watchBeats x z) : watchBeats x y := by
  rcases h with h | ⟨he, hr⟩
  · exact Or.inl (by omega)
  · refine Or.inr ⟨by omega, ?_⟩
    rcases hr with hr | ⟨hts, hst, hst'⟩
    · exact Or.inl (by rw [ht]; exact hr)
    · exact Or.inr ⟨ht.trans hts, hs.2 hst, hst'⟩

theorem watch_lt_trans (a b c : WatchRow)
    (h₁ : watch_lt a b = true) (h₂ : watch_lt b c = true) : watch_lt a c = true :=
  (watch_lt_iff a c).2 (watchBeats_trans ((watch_lt_iff a b).1 h₁) ((watch_lt_iff b c).1 h₂))

theorem watch_lt_cross (x y z : WatchRow)
    (h₁ : watch_lt x z = true) (h₂ : watch_lt x y = false) : watch_lt y z = true := by
  have hxz : watchBeats x z := (watch_lt_iff x z).1 h₁
  have hxy : ¬ watchBeats x y := fun hh =>
    by rw [(watch_lt_iff x y).2 hh] at h₂; cases h₂
  rcases watchBeats_trichotomy y z with h | ⟨hp, ht, hs⟩ | h
  · exact (watch_lt_iff y z).2 h
  · exact absurd (watchBeats_congr hp ht hs hxz) hxy
  · exact absurd (watchBeats_trans hxz ((watch_lt_iff z y).1 ((watch_lt_iff z y).2 h)))
      hxy

/-- C3: the published Watch Record output has at most one row per
`(user_id, movie_id)` pair, and for a pair with validated observations
`c :: cs` the published row `w` beats (in the three-level precedence: status
priority `watched > watching > wishlist`, then lexicographically later
`created_at`, then `star = TRUE` over not-`TRUE`) every earlier observation
and is beaten by no later one. -/
theorem c3_watch_dedup (rows : List WatchCsvRow) (k : Int × Int) (c : WatchRow)
    (cs : List WatchRow) (hc : watchCandidates k rows = c :: cs) :
    (((build_watching_records_for_sql rows).dedup).map
      (fun p => (p.2.user_id, p.2.movie_id))).Nodup ∧
    ∃ pre post w,
      alookup k (build_watching_records_for_sql rows).dedup = some w ∧
      c :: cs = pre ++ w :: post ∧
      (∀ r ∈ pre, watchBeats r w) ∧
      (∀ r ∈ post, ¬ watchBeats w r) := by
  have hbuild : (build_watching_records_for_sql rows).dedup =
      dedupFold watchKey watch_lt (rows.filterMap parse_watch_row) [] := by
    unfold build_watching_records_for_sql
    rw [build_watching_dedup]
  constructor
  · have hinv : ∀ p ∈ (build_watching_records_for_sql rows).dedup,
        watchKey p.2 = p.1 := by
      rw [hbuild]
      exact dedupFold_key_invariant watchKey watch_lt _ [] (by simp)
    have hmap : ((build_watching_records_for_sql rows).dedup).map
        (fun p => (p.2.user_id, p.2.movie_id)) =
        ((build_watching_records_for_sql rows).dedup).map Prod.fst := by
      apply List.map_congr_left
      intro p hp
      exact hinv p hp
    rw [hmap, hbuild]
    exact dedupFold_keys_nodup watchKey watch_lt _ [] (by simp)
  · have halo : alookup k (build_watching_records_for_sql rows).dedup =
        some (pickFold watch_lt c cs) := by
      rw [hbuild, alookup_dedupFold]
      have h0 : alookup k ([] : List ((Int × Int) × WatchRow)) = none := rfl
      rw [h0]
      show bestResult watch_lt none (watchCandidates k rows) = _
      rw [hc]
      rfl
    rcases pickFold_spec watch_lt watch_lt_trans watch_lt_cross cs c with
      ⟨pre, post, hdec, hpre, hpost⟩
    refine ⟨pre, post, pickFold watch_lt c cs, halo, hdec, ?_, ?_⟩
    · intro r hr
      exact (watch_lt_iff r _).1 (hpre r hr)
    · intro r hr hbeat
      have h1 := (watch_lt_iff _ r).2 hbeat
      have h2 := hpost r hr
      rw [h1] at h2
      cases h2

/-- Witness for `c3_watch_dedup`: a "watched" observation beats a later
"wishlist" observation for the same pair regardless of timestamps. -/
theorem c3_watch_dedup_witness :
    (((build_watching_records_for_sql
      [⟨some "5", some "9", some "watched", some "2020-01-01 00:00:00", none⟩,
       ⟨some "5", some "9", some "wishlist", some "2022-01-01 00:00:00", some "1"⟩]).dedup).map
      (fun p => (p.2.user_id, p.2.movie_id))).Nodup ∧
    ∃ pre post w,
      alookup ((9 : Int), (5 : Int)) (build_watching_records_for_sql
        [⟨some "5", some "9", some "watched", some "2020-01-01 00:00:00", none⟩,
         ⟨some "5", some "9", some "wishlist", some "2022-01-01 00:00:00", some "1"⟩]).dedup
        = some w ∧
      (⟨9, 5, "FALSE", "watched", "2020-01-01 00:00:00"⟩ : WatchRow) ::
        [⟨9, 5, "TRUE", "wishlist", "2022-01-01 00:00:00"⟩] = pre ++ w :: post ∧
      (∀ r ∈ pre, watchBeats r w) ∧
      (∀ r ∈ post, ¬ watchBeats w r) :=
  c3_watch_dedup
    [⟨some "5", some "9", some "watched", some "2020-01-01 00:00:00", none⟩,
     ⟨some "5", some "9", some "wishlist", some "2022-01-01 00:00:00", some "1"⟩]
    (9, 5) ⟨9, 5, "FALSE", "watched", "2020-01-01 00:00:00"⟩
    [⟨9, 5, "TRUE", "wishlist", "2022-01-01 00:00:00"⟩] (by decide)

/-- `normalize_status` yields either `""` or one of the three allowed
statuses. -/
theorem normalize_status_cases (s : Option String) :
    normalize_status s = "" ∨ normalize_status s = "wishlist" ∨
    normalize_status s = "watching" ∨ normalize_status s = "watched" := by
  cases s with
  | none => exact Or.inl rfl
  | some s =>
    unfold normalize_status
    by_cases h0 : s = ""
    · simp [h0]
    · by_cases ht : pyLower (pyStrip s) = "wishlist" ∨ pyLower (pyStrip s) = "watching" ∨
          pyLower (pyStrip s) = "watched"
      · rcases ht with h | h | h
        · exact Or.inr (Or.inl (by simp [h0, h]))
        · exact Or.inr (Or.inr (Or.inl (by simp [h0, h])))
        · exact Or.inr (Or.inr (Or.inr (by simp [h0, h])))
      · exact Or.inl (by simp [h0, ht])

/-- Every validated watch row's status lies in the closed status set. -/
theorem parse_watch_row_status {row : WatchCsvRow} {r : WatchRow}
    (h : parse_watch_row row = some r) :
    r.status = "wishlist" ∨ r.status = "watching" ∨ r.status = "watched" := by
  unfold parse_watch_row at h
  cases hb : (!pyTruthy row.movie_id || !pyTruthy row.user_id)
  · rw [hb] at h
    simp only [Bool.false_eq_true, if_false] at h
    cases hm : pyInt (row.movie_id.getD "") with
    | none => rw [hm] at h; cases h
    | some movie_id =>
      cases hu : pyInt (row.user_id.getD "") with
      | none => rw [hm, hu] at h; cases h
      | some user_id =>
        rw [hm, hu] at h
        by_cases hs : normalize_status row.status = ""
        · simp [hs] at h
        · by_cases hcr : pyStrip (row.created_at.getD "") = ""
          · simp [hs, hcr] at h
          · simp only [hs, hcr, if_neg, if_false] at h
            have hr : r.status = normalize_status row.status := by
              cases h
              rfl
            rw [hr]
            rcases normalize_status_cases row.status with h' | h' | h' | h'
            · exact absurd h' hs
            · exact Or.inl h'
            · exact Or.inr (Or.inl h')
            · exact Or.inr (Or.inr h')
  · rw [hb] at h
    simp at h

/-- A row whose status does not normalize into the closed set is dropped and
counted as a basic skip, whatever its other fields are. -/
theorem watch_step_invalid_status (st : WatchState) (row : WatchCsvRow)
    (hstat : normalize_status row.status = "") :
    watch_step st row =
      { st with total := st.total + 1, skipped_basic := st.skipped_basic + 1 } := by
  unfold watch_step
  cases hb : (!pyTruthy row.movie_id || !pyTruthy row.user_id)
  · simp only [Bool.false_eq_true, if_false]
    cases hm : pyInt (row.movie_id.getD "") with
    | none => rfl
    | some movie_id =>
      cases hu : pyInt (row.user_id.getD "") with
      | none => rfl
      | some user_id => simp [hstat]
  · rfl

/-- C10: every row published by the watch-record builder has a status in the
closed set `{wishlist, watching, watched}`; a row whose status normalizes
outside that set leaves the dedup map untouched and is counted as skipped; and
the `"unknown"` placeholder that etl/05 substitutes for a missing status is
such a row. -/
theorem c10_watch_status_closed :
    (∀ rows : List WatchCsvRow, ∀ p ∈ (build_watching_records_for_sql rows).dedup,
      p.2.status = "wishlist" ∨ p.2.status = "watching" ∨ p.2.status = "watched") ∧
    (∀ (st : WatchState) (row : WatchCsvRow), normalize_status row.status = "" →
      watch_step st row =
        { st with total := st.total + 1, skipped_basic := st.skipped_basic + 1 }) ∧
    normalize_status (some "unknown") = "" := by
  refine ⟨?_, watch_step_invalid_status, by decide⟩
  intro rows p hp
  have hbuild : (build_watching_records_for_sql rows).dedup =
      dedupFold watchKey watch_lt (rows.filterMap parse_watch_row) [] := by
    unfold build_watching_records_for_sql
    rw [build_watching_dedup]
  rw [hbuild] at hp
  refine dedupFold_values watchKey watch_lt
    (fun r => r.status = "wishlist" ∨ r.status = "watching" ∨ r.status = "watched")
    _ [] (by simp) ?_ p hp
  intro r hr
  rcases List.mem_filterMap.1 hr with ⟨row, _, hrow⟩
  exact parse_watch_row_status hrow

/-- Witness for `c10_watch_status_closed`'s middle conjunct at a concrete
state and the `"unknown"` row produced upstream. -/
theorem c10_watch_status_closed_witness :
    watch_step ⟨[], 0, 0, 0, 0⟩
      ⟨some "1", some "2", some "unknown", some "2020-01-01 00:00:00", none⟩ =
      ⟨[], 1, 1, 0, 0⟩ := by
  have h := c10_watch_status_closed.2.1 ⟨[], 0, 0, 0, 0⟩
    ⟨some "1", some "2", some "unknown", some "2020-01-01 00:00:00", none⟩ (by decide)
  rw [h]

/-! ## `2_build_person_seeds.py`: cast statistics and `actor_score` -/

/-- One `movie_cast.jsonl` observation as `collect_person_stats` reads it
(`order` is the parsed billing order, `none` when absent or unparseable). -/
structure SeedCastObs where
  person_douban_id : Option String
  movie_douban_id : Option String
  order : Option Int
deriving DecidableEq, Repr

/-- The cast part of one person's statistics: the set of cast movies and the
per-movie minimum billing order (`cast_orders` only ever receives non-`None`
orders, because the insertion is guarded by `if order is not None`). -/
structure CastStats where
  cast_movies : List String
  cast_orders : List (String × Int)
deriving DecidableEq, Repr

/-- The cast-stream part of `collect_person_stats`. -/
def collect_cast_stats (obs : List SeedCastObs) : List (String × CastStats) :=
  obs.foldl
    (fun m o =>
      let pid := pyStrip (o.person_douban_id.getD "")
      let mid := pyStrip (o.movie_douban_id.getD "")
      if pid = "" ∨ mid = "" then m
      else
        upsert pid
          (fun st =>
            { cast_movies := addToSet st.cast_movies mid
              cast_orders :=
                match o.order with
                | none => st.cast_orders
                | some k =>
                  match alookup mid st.cast_orders with
                  | none => upsert mid (fun _ => k) k st.cast_orders
                  | some prev =>
                    if k < prev then upsert mid (fun _ => k) k st.cast_orders
                    else st.cast_orders })
          ⟨[mid], match o.order with | none => [] | some k => [(mid, k)]⟩ m)
    []

/-- The per-movie weight of `actor_score` in `build_person_seeds`: 3 points
for best order ≤ 3, 2 for ≤ 8, 1 otherwise.  The source also has an
`if order is None: actor_score += 1` arm, but the values iterated are
`cast_orders.values()`, which never contains `None`. -/
def order_weight (order : Int) : Nat :=
  if order ≤ 3 then 3 else if order ≤ 8 then 2 else 1

/-- `actor_score` of `build_person_seeds`: sum of weights over
`cast_orders.values()`. -/
def actor_score (st : CastStats) : Nat :=
  (st.cast_orders.map (fun p => order_weight p.2)).sum

/-- C8 failing input: a single cast observation with an unknown billing order.
The movie is counted as a distinct cast movie, but it never enters
`cast_orders`, so `actor_score` is 0 — the claim (and the dead
`order is None` arm of the source) expects 1 point for it. -/
theorem c8_unknown_order_scores_zero :
    ((alookup "p1" (collect_cast_stats
      [⟨some "p1", some "m1", none⟩])).getD ⟨[], []⟩).cast_movies = ["m1"] ∧
    actor_score ((alookup "p1" (collect_cast_stats
      [⟨some "p1", some "m1", none⟩])).getD ⟨[], []⟩) = 0 := by
  constructor <;> decide

/-! ## etl/04 `extract_role_name` -/

/-- Lazy bracket content: the shortest run after an opening bracket up to the
first closing bracket, failing at a newline (the `.` of the regex
`[（(](.*?)[)）]` does not cross lines). -/
def takeUntilClose : List Char → Option (List Char)
  | [] => none
  | c :: rest =>
    if c = ')' ∨ c = '）' then some []
    else if c = '\n' then none
    else (takeUntilClose rest).map (fun l => c :: l)

/-- `re.search` for `[（(](.*?)[)）]`: the earliest opening bracket from which
a closing bracket is reachable, with the lazy inner content. -/
def parenInner : List Char → Option (List Char)
  | [] => none
  | c :: rest =>
    if c = '（' ∨ c = '(' then
      match takeUntilClose rest with
      | some inner => some inner
      | none => parenInner rest
    else parenInner rest

/-- The characters of `.strip(" ：:，,")` in the `饰` fallback. -/
def isRoleSep (c : Char) : Bool :=
  c = ' ' ∨ c = '：' ∨ c = ':' ∨ c = '，' ∨ c = ','

/-- The fallback of `extract_role_name` when no bracketed role is found:
text after the first `饰`, else the raw (stripped) string, truncated to 50. -/
def roleShiFallback (role : String) : String :=
  if decide ('饰' ∈ role.data) then
    let after := (role.data.dropWhile (fun c => c ≠ '饰')).drop 1
    let candidate := stripList isRoleSep after
    if candidate ≠ [] then ⟨candidate.take 50⟩ else ⟨role.data.take 50⟩
  else ⟨role.data.take 50⟩

/-- The body of `extract_role_name` after `role_field = role_field.strip()`. -/
def extract_role_core (role : String) : String :=
  match parenInner role.data with
  | some innerL =>
    let inner1 := pyStrip ⟨innerL⟩
    let inner2 :=
      if inner1.data.take 2 = ['配', ' '] then pyStrip ⟨inner1.data.drop 2⟩
      else if inner1.data.take 2 = ['饰', ' '] then pyStrip ⟨inner1.data.drop 2⟩
      else inner1
    let inner3 := pyStrip inner2
    if inner3 ≠ "" then ⟨inner3.data.take 50⟩
    else roleShiFallback role
  | none => roleShiFallback role

/-- `extract_role_name` of etl/04. -/
def extract_role_name (role_field : String) : String :=
  if role_field = "" then "角色"
  else extract_role_core (pyStrip role_field)

/-- C9 counterexample: `"主演 饰 Neo"` has no parenthetical, yet the extractor
returns `"Neo"` (the text after `饰`), not the raw role string. -/
theorem c9_counterexample :
    parenInner (pyStrip "主演 饰 Neo").data = none ∧
    extract_role_name "主演 饰 Neo" = "Neo" ∧
    ("Neo" : String) ≠ "主演 饰 Neo" := by
  refine ⟨?_, ?_, ?_⟩ <;> decide

/-- C9 (amended): the extractor returns the bracketed content with the
`配 `/`饰 ` prefix stripped when a parenthetical with non-empty content is
present (`"配音 Voice (配 碇真嗣)" ↦ "碇真嗣"`); with no parenthetical it
falls back first to the text after a `饰` character if one occurs
(`"主演 饰 Neo" ↦ "Neo"`) and only otherwise to the raw stripped role string
truncated to 50 characters (`"演员 Actor" ↦ "演员 Actor"`). -/
theorem c9_role_name_extraction :
    extract_role_name "配音 Voice (配 碇真嗣)" = "碇真嗣" ∧
    extract_role_name "演员 Actor" = "演员 Actor" ∧
    extract_role_name "主演 饰 Neo" = "Neo" ∧
    (∀ s : String, s ≠ "" → parenInner (pyStrip s).data = none →
      '饰' ∉ (pyStrip s).data →
      extract_role_name s = ⟨(pyStrip s).data.take 50⟩) := by
  refine ⟨by decide, by decide, by decide, ?_⟩
  intro s hs hparen hshi
  unfold extract_role_name
  rw [if_neg hs]
  unfold extract_role_core
  rw [hparen]
  unfold roleShiFallback
  rw [decide_eq_false hshi]
  simp

/-- Witness for the fallback clause of `c9_role_name_extraction` at the
concrete input `"龙套"`. -/
theorem c9_role_name_extraction_witness :
    extract_role_name "龙套" = ⟨(pyStrip "龙套").data.take 50⟩ :=
  c9_role_name_extraction.2.2.2 "龙套" (by decide) (by decide) (by decide)

/-! ## etl/04 `build_credits`: Position dictionary, crew and cast credits -/

theorem alookup_mem {K V : Type} [DecidableEq K] {k : K} {v : V} :
    ∀ {m : List (K × V)}, alookup k m = some v → (k, v) ∈ m
  | [], h => by cases h
  | (k', v') :: rest, h => by
    by_cases hk : k' = k
    · subst hk
      rw [alookup, if_pos rfl] at h
      cases h
      exact List.mem_cons_self _ _
    · rw [alookup, if_neg hk] at h
      exact List.mem_cons_of_mem _ (alookup_mem h)

theorem mem_upsert_const {K V : Type} [DecidableEq K] {k : K} {v : V} {p : K × V} :
    ∀ {m : List (K × V)}, p ∈ upsert k (fun _ => v) v m → p ∈ m ∨ p.2 = v
  | [], hp => by
    simp only [upsert, List.mem_singleton] at hp
    exact Or.inr (by rw [hp])
  | (k₀, v₀) :: rest, hp => by
    by_cases h₀ : k₀ = k
    · rw [upsert, if_pos h₀] at hp
      rcases List.mem_cons.1 hp with hp' | hp'
      · exact Or.inr (by rw [hp'])
      · exact Or.inl (List.mem_cons_of_mem _ hp')
    · rw [upsert, if_neg h₀] at hp
      rcases List.mem_cons.1 hp with hp' | hp'
      · exact Or.inl (List.mem_cons.2 (Or.inl hp'))
      · rcases mem_upsert_const hp' with h' | h'
        · exact Or.inl (List.mem_cons_of_mem _ h')
        · exact Or.inr h'

/-- One `movie_crew.jsonl` observation. -/
structure CrewObj where
  movie_douban_id : Option String
  person_douban_id : Option String
  role : Option String
  department : Option String
  order : Option Int
deriving DecidableEq, Repr

/-- One `movie_cast.jsonl` observation. -/
structure CastObj where
  movie_douban_id : Option String
  person_douban_id : Option String
  role : Option String
  order : Option Int
deriving DecidableEq, Repr

/-- The mutable Position dictionary of etl/04: the `name -> id` map, the rows
to be rewritten to `positions.csv`, and the running maximal id. -/
structure PositionState where
  byName : List (String × Int)
  rows : List (Int × String)
  maxId : Int
deriving DecidableEq, Repr

/-- `load_positions` of etl/04, from the `(id, name)` cells of an existing
`positions.csv` (absent file = empty list). -/
def load_positions (csv : List (Option String × Option String)) : PositionState :=
  csv.foldl
    (fun st p =>
      let name := pyStrip (p.2.getD "")
      if name = "" then st
      else
        match p.1 with
        | none => st
        | some idRaw =>
          match pyInt idRaw with
          | none => st
          | some pid =>
            { byName := upsert name (fun _ => pid) pid st.byName
              rows := st.rows ++ [(pid, name)]
              maxId := max st.maxId pid })
    ⟨[], [], 0⟩

/-- `" ".join((name or "").split()) or "Unknown"`. -/
def position_clean_name (rawName : String) : String :=
  if pyJoinSplit rawName = "" then "Unknown" else pyJoinSplit rawName

/-- `get_or_create_position_id` of etl/04. -/
def get_or_create_position_id (st : PositionState) (rawName : String) :
    Int × PositionState :=
  match alookup (position_clean_name rawName) st.byName with
  | some pid => (pid, st)
  | none =>
    (st.maxId + 1,
      ⟨upsert (position_clean_name rawName) (fun _ => st.maxId + 1) (st.maxId + 1)
          st.byName,
        st.rows ++ [(st.maxId + 1, position_clean_name rawName)], st.maxId + 1⟩)

/-- `is_principal_by_order` of etl/04: `0 < order ≤ 3`. -/
def is_principal_by_order (o : Option Int) : Bool :=
  match o with
  | none => false
  | some k => decide (0 < k ∧ k ≤ 3)

/-- A `crew_credit.csv` row. -/
structure CrewCredit where
  movie_id : Int
  person_id : Int
  position_id : Int
  is_principal : Bool
deriving DecidableEq, Repr

/-- `build_crew_credit` of etl/04: resolve both foreign keys through the
loaded id maps (skipping a record whose movie or person is unmapped), resolve
the position name through the growing Position dictionary, and emit one row
per surviving source line. -/
def crew_step (movie_id_map person_id_map : List (String × Int))
    (acc : List CrewCredit × PositionState) (rec : CrewObj) :
    List CrewCredit × PositionState :=
  if pyStrip (rec.movie_douban_id.getD "") = "" then acc
  else
    match alookup (pyStrip (rec.movie_douban_id.getD "")) movie_id_map with
    | none => acc
    | some movie_id =>
      if pyStrip (rec.person_douban_id.getD "") = "" then acc
      else
        match alookup (pyStrip (rec.person_douban_id.getD "")) person_id_map with
        | none => acc
        | some person_id =>
          let role_field := pyStrip (rec.role.getD "")
          let department := pyStrip (rec.department.getD "")
          let pos_raw :=
            if role_field ≠ "" then role_field
            else if department ≠ "" then department
            else "Unknown"
          let pr := get_or_create_position_id acc.2 (pyJoinSplit pos_raw)
          (acc.1 ++
            [⟨movie_id, person_id, pr.1, is_principal_by_order rec.order⟩], pr.2)

def build_crew_credit (movie_id_map person_id_map : List (String × Int))
    (recs : List CrewObj) (st0 : PositionState) : List CrewCredit × PositionState :=
  recs.foldl (crew_step movie_id_map person_id_map) ([], st0)

/-- A `cast_credit.csv` row. -/
structure CastCredit where
  movie_id : Int
  person_id : Int
  role_name : String
  is_principal : Bool
deriving DecidableEq, Repr

/-- Every id assigned in the Position name map has a row in the persisted
Position table. -/
def posCoherent (st : PositionState) : Prop :=
  ∀ p ∈ st.byName, ∃ q ∈ st.rows, q.1 = p.2

theorem load_positions_coherent (csv : List (Option String × Option String)) :
    posCoherent (load_positions csv) := by
  unfold load_positions
  suffices h : ∀ st : PositionState, posCoherent st →
      posCoherent (csv.foldl
        (fun st p =>
          let name := pyStrip (p.2.getD "")
          if name = "" then st
          else
            match p.1 with
            | none => st
            | some idRaw =>
              match pyInt idRaw with
              | none => st
              | some pid =>
                { byName := upsert name (fun _ => pid) pid st.byName
                  rows := st.rows ++ [(pid, name)]
                  maxId := max st.maxId pid }) st) by
    exact h ⟨[], [], 0⟩ (by intro p hp; cases hp)
  induction csv with
  | nil => intro st h; exact h
  | cons p csv ih =>
    intro st h
    rw [List.foldl_cons]
    apply ih
    by_cases hn : pyStrip (p.2.getD "") = ""
    · simpa [hn] using h
    · cases hid : p.1 with
      | none => simpa [hn, hid] using h
      | some idRaw =>
        cases hint : pyInt idRaw with
        | none => simpa [hn, hid, hint] using h
        | some pid =>
          simp only [hn, hid, hint, if_neg]
          intro q hq
          rcases mem_upsert_const hq with hq' | hq'
          · rcases h q hq' with ⟨w, hw, hww⟩
            exact ⟨w, List.mem_append_left _ hw, hww⟩
          · exact ⟨(pid, pyStrip (p.2.getD "")),
              List.mem_append_right _ (List.mem_singleton.2 rfl), hq'.symm⟩

theorem get_or_create_spec (st : PositionState) (rawName : String)
    (hcoh : posCoherent st) :
    posCoherent (get_or_create_position_id st rawName).2 ∧
    (∀ q ∈ st.rows, q ∈ (get_or_create_position_id st rawName).2.rows) ∧
    ∃ q ∈ (get_or_create_position_id st rawName).2.rows,
      q.1 = (get_or_create_position_id st rawName).1 := by
  unfold get_or_create_position_id
  cases halo : alookup (position_clean_name rawName) st.byName with
  | some pid =>
    refine ⟨hcoh, fun q hq => hq, ?_⟩
    exact hcoh (position_clean_name rawName, pid) (alookup_mem halo)
  | none =>
    refine ⟨?_, fun q hq => List.mem_append_left _ hq, ?_⟩
    · intro q hq
      rcases mem_upsert_const hq with hq' | hq'
      · rcases hcoh q hq' with ⟨w, hw, hww⟩
        exact ⟨w, List.mem_append_left _ hw, hww⟩
      · exact ⟨(st.maxId + 1, position_clean_name rawName),
          List.mem_append_right _ (List.mem_singleton.2 rfl), hq'.symm⟩
    · exact ⟨(st.maxId + 1, position_clean_name rawName),
        List.mem_append_right _ (List.mem_singleton.2 rfl), rfl⟩

/-- The C5 row property for a crew credit: each surrogate id in the row exists
in the corresponding id table (the Position table being the final, persisted
one). -/
def crewOk (mm pm : List (String × Int)) (st : PositionState) (cr : CrewCredit) :
    Prop :=
  (∃ k, (k, cr.movie_id) ∈ mm) ∧ (∃ k, (k, cr.person_id) ∈ pm) ∧
    ∃ q ∈ st.rows, q.1 = cr.position_id

theorem crew_step_invariant (mm pm : List (String × Int)) (rec : CrewObj)
    (acc : List CrewCredit × PositionState)
    (h1 : posCoherent acc.2) (h2 : ∀ cr ∈ acc.1, crewOk mm pm acc.2 cr) :
    posCoherent (crew_step mm pm acc rec).2 ∧
    ∀ cr ∈ (crew_step mm pm acc rec).1, crewOk mm pm (crew_step mm pm acc rec).2 cr := by
  unfold crew_step
  by_cases hm0 : pyStrip (rec.movie_douban_id.getD "") = ""
  · rw [if_pos hm0]
    exact ⟨h1, h2⟩
  · rw [if_neg hm0]
    cases hmm : alookup (pyStrip (rec.movie_douban_id.getD "")) mm with
    | none => exact ⟨h1, h2⟩
    | some movie_id =>
      dsimp only
      by_cases hp0 : pyStrip (rec.person_douban_id.getD "") = ""
      · rw [if_pos hp0]
        exact ⟨h1, h2⟩
      · rw [if_neg hp0]
        cases hpm : alookup (pyStrip (rec.person_douban_id.getD "")) pm with
        | none => exact ⟨h1, h2⟩
        | some person_id =>
          dsimp only
          obtain ⟨hc, hext, hpos⟩ := get_or_create_spec acc.2 _ h1
          refine ⟨hc, ?_⟩
          intro cr hcr
          rcases List.mem_append.1 hcr with hcr | hcr
          · obtain ⟨hmo, hpe, q, hq, hqq⟩ := h2 cr hcr
            exact ⟨hmo, hpe, q, hext q hq, hqq⟩
          · rcases List.mem_singleton.1 hcr with rfl
            exact ⟨⟨_, alookup_mem hmm⟩, ⟨_, alookup_mem hpm⟩, hpos⟩

theorem build_crew_credit_ok (mm pm : List (String × Int)) (recs : List CrewObj) :
    ∀ acc : List CrewCredit × PositionState,
      posCoherent acc.2 → (∀ cr ∈ acc.1, crewOk mm pm acc.2 cr) →
      ∀ cr ∈ (recs.foldl (crew_step mm pm) acc).1,
        crewOk mm pm (recs.foldl (crew_step mm pm) acc).2 cr := by
  induction recs with
  | nil => intro acc _ h2; exact h2
  | cons rec recs ih =>
    intro acc h1 h2
    rw [List.foldl_cons]
    obtain ⟨h1', h2'⟩ := crew_step_invariant mm pm rec acc h1 h2
    exact ih _ h1' h2'

def cast_emit (movie_id_map person_id_map : List (String × Int)) (rec : CastObj) :
    Option CastCredit :=
  if pyStrip (rec.movie_douban_id.getD "") = "" then none
  else
    match alookup (pyStrip (rec.movie_douban_id.getD "")) movie_id_map with
    | none => none
    | some movie_id =>
      if pyStrip (rec.person_douban_id.getD "") = "" then none
      else
        match alookup (pyStrip (rec.person_douban_id.getD "")) person_id_map with
        | none => none
        | some person_id =>
          some ⟨movie_id, person_id,
            pyJoinSplit (extract_role_name (pyStrip (rec.role.getD ""))),
            is_principal_by_order rec.order⟩

/-- `build_cast_credit` of etl/04. -/
def build_cast_credit (movie_id_map person_id_map : List (String × Int))
    (recs : List CastObj) : List CastCredit :=
  recs.filterMap (cast_emit movie_id_map person_id_map)

theorem cast_emit_ok {mm pm : List (String × Int)} {rec : CastObj} {c : CastCredit}
    (h : cast_emit mm pm rec = some c) :
    (∃ k, (k, c.movie_id) ∈ mm) ∧ ∃ k, (k, c.person_id) ∈ pm := by
  unfold cast_emit at h
  by_cases hm0 : pyStrip (rec.movie_douban_id.getD "") = ""
  · rw [if_pos hm0] at h; cases h
  · rw [if_neg hm0] at h
    cases hmm : alookup (pyStrip (rec.movie_douban_id.getD "")) mm with
    | none => rw [hmm] at h; cases h
    | some movie_id =>
      rw [hmm] at h
      dsimp only at h
      by_cases hp0 : pyStrip (rec.person_douban_id.getD "") = ""
      · rw [if_pos hp0] at h; cases h
      · rw [if_neg hp0] at h
        cases hpm : alookup (pyStrip (rec.person_douban_id.getD "")) pm with
        | none => rw [hpm] at h; cases h
        | some person_id =>
          rw [hpm] at h
          dsimp only at h
          cases h
          exact ⟨⟨_, alookup_mem hmm⟩, ⟨_, alookup_mem hpm⟩⟩

/-! ## etl/07 `build_bridge_csv` -/

/-- One source row of `movie_genres.csv` / `movie_regions.csv` /
`movie_languages.csv`: the movie natural key and the dictionary name cell. -/
structure BridgeSrcRow where
  movie_douban_id : Option String
  name : Option String
deriving DecidableEq, Repr

/-- One iteration of `build_bridge_csv`: resolve both ids, dedup on the exact
`(movie_id, dict_id)` pair, emit in insertion order. -/
def bridge_step (movie_map dict_map : List (String × Int))
    (out : List (Int × Int)) (row : BridgeSrcRow) : List (Int × Int) :=
  if pyStrip (row.movie_douban_id.getD "") = "" then out
  else if pyStrip (row.name.getD "") = "" then out
  else
    match alookup (pyStrip (row.movie_douban_id.getD "")) movie_map with
    | none => out
    | some movie_id =>
      match alookup (pyStrip (row.name.getD "")) dict_map with
      | none => out
      | some dict_id =>
        if (movie_id, dict_id) ∈ out then out else out ++ [(movie_id, dict_id)]

/-- `build_bridge_csv` of etl/07 (the emitted `(movie_id, dict_id)` pairs). -/
def build_bridge_csv (movie_map dict_map : List (String × Int))
    (src : List BridgeSrcRow) : List (Int × Int) :=
  src.foldl (bridge_step movie_map dict_map) []

theorem bridge_step_ok {mm dm : List (String × Int)} (row : BridgeSrcRow)
    (out : List (Int × Int))
    (h : ∀ p ∈ out, (∃ k, (k, p.1) ∈ mm) ∧ ∃ k, (k, p.2) ∈ dm) :
    ∀ p ∈ bridge_step mm dm out row,
      (∃ k, (k, p.1) ∈ mm) ∧ ∃ k, (k, p.2) ∈ dm := by
  unfold bridge_step
  by_cases hm0 : pyStrip (row.movie_douban_id.getD "") = ""
  · rw [if_pos hm0]; exact h
  · rw [if_neg hm0]
    by_cases hn0 : pyStrip (row.name.getD "") = ""
    · rw [if_pos hn0]; exact h
    · rw [if_neg hn0]
      cases hmm : alookup (pyStrip (row.movie_douban_id.getD "")) mm with
      | none => exact h
      | some movie_id =>
        dsimp only
        cases hdm : alookup (pyStrip (row.name.getD "")) dm with
        | none => exact h
        | some dict_id =>
          dsimp only
          by_cases hdup : (movie_id, dict_id) ∈ out
          · rw [if_pos hdup]; exact h
          · rw [if_neg hdup]
            intro p hp
            rcases List.mem_append.1 hp with hp | hp
            · exact h p hp
            · rcases List.mem_singleton.1 hp with rfl
              exact ⟨⟨_, alookup_mem hmm⟩, ⟨_, alookup_mem hdm⟩⟩

theorem build_bridge_csv_ok (mm dm : List (String × Int)) (src : List BridgeSrcRow) :
    ∀ p ∈ build_bridge_csv mm dm src,
      (∃ k, (k, p.1) ∈ mm) ∧ ∃ k, (k, p.2) ∈ dm := by
  unfold build_bridge_csv
  suffices hgen : ∀ out, (∀ p ∈ out, (∃ k, (k, p.1) ∈ mm) ∧ ∃ k, (k, p.2) ∈ dm) →
      ∀ p ∈ src.foldl (bridge_step mm dm) out,
        (∃ k, (k, p.1) ∈ mm) ∧ ∃ k, (k, p.2) ∈ dm by
    exact hgen [] (by intro p hp; cases hp)
  induction src with
  | nil => intro out h; exact h
  | cons row src ih =>
    intro out h
    rw [List.foldl_cons]
    exact ih _ (bridge_step_ok row out h)

/-! ## etl/08 `build_award_records` -/

/-- One row of the staging `award_records.csv`. -/
structure AwardSrcRow where
  festival_name : Option String
  festival_year : Option String
  award_name : Option String
  award_type : Option String
  is_winner : Option String
  movie_douban_id : Option String
  person_douban_id : Option String
  person_name : Option String
  extra_desc : Option String
deriving DecidableEq, Repr

/-- One published `award_record_for_sql.csv` row (`person_id = none` is the
empty cell, imported as SQL NULL). -/
structure AwardOutRow where
  award_id : Int
  movie_id : Int
  person_id : Option Int
  is_winner : Bool
  description : String
deriving DecidableEq, Repr

/-- The fate of one source row in the etl/08 loop, one constructor per
counter. -/
inductive AwardOutcome where
  | written (r : AwardOutRow)
  | skippedNoMovie
  | skippedNoFestival
  | skippedNoAward
  | skippedNoPerson
deriving DecidableEq, Repr

/-- `"TRUE" if is_winner_raw in ("1", "true", "TRUE", "t", "T") else "FALSE"`. -/
def award_is_winner (s : String) : Bool :=
  s = "1" ∨ s = "true" ∨ s = "TRUE" ∨ s = "t" ∨ s = "T"

/-- The `description` cleaning of etl/08: newlines to spaces, strip, truncate
to 50 characters. -/
def clean_award_desc (s : String) : String :=
  ⟨(pyStrip ⟨s.data.map (fun c => if c = '\r' ∨ c = '\n' then ' ' else c)⟩).data.take 50⟩

/-- The etl/08 loop body for one `award_records.csv` row: movie, then
festival, then award, then (optional) person resolution, each unresolvable
reference dropping the record with its own counter. -/
def award_step (movie_map person_map : List (String × Int))
    (festival_map : List ((String × Int) × Int))
    (award_map : List ((Int × String × String) × Int))
    (row : AwardSrcRow) : AwardOutcome :=
  if pyStrip (row.movie_douban_id.getD "") = "" then .skippedNoMovie
  else
    match alookup (pyStrip (row.movie_douban_id.getD "")) movie_map with
    | none => .skippedNoMovie
    | some movie_id =>
      match pyInt (pyStrip (row.festival_year.getD "")) with
      | none => .skippedNoFestival
      | some fest_year =>
        match alookup (pyStrip (row.festival_name.getD ""), fest_year) festival_map with
        | none => .skippedNoFestival
        | some fest_id =>
          match alookup (fest_id, pyStrip (row.award_name.getD ""),
              pyStrip (row.award_type.getD "")) award_map with
          | none => .skippedNoAward
          | some award_id =>
            if pyStrip (row.person_douban_id.getD "") = "" then
              .written ⟨award_id, movie_id, none,
                award_is_winner (pyStrip (row.is_winner.getD "")),
                clean_award_desc (pyStrip (row.extra_desc.getD ""))⟩
            else
              match alookup (pyStrip (row.person_douban_id.getD "")) person_map with
              | none => .skippedNoPerson
              | some person_id =>
                .written ⟨award_id, movie_id, some person_id,
                  award_is_winner (pyStrip (row.is_winner.getD "")),
                  clean_award_desc (pyStrip (row.extra_desc.getD ""))⟩

/-- `build_award_records` of etl/08: the written rows, in source order. -/
def build_award_records (movie_map person_map : List (String × Int))
    (festival_map : List ((String × Int) × Int))
    (award_map : List ((Int × String × String) × Int))
    (rows : List AwardSrcRow) : List AwardOutRow :=
  rows.filterMap (fun row =>
    match award_step movie_map person_map festival_map award_map row with
    | .written r => some r
    | _ => none)

theorem award_step_written {mm pm : List (String × Int)}
    {fm : List ((String × Int) × Int)} {am : List ((Int × String × String) × Int)}
    {row : AwardSrcRow} {r : AwardOutRow}
    (h : award_step mm pm fm am row = .written r) :
    (∃ k, (k, r.award_id) ∈ am) ∧ (∃ k, (k, r.movie_id) ∈ mm) ∧
    ∀ pid, r.person_id = some pid → ∃ k, (k, pid) ∈ pm := by
  unfold award_step at h
  by_cases hm0 : pyStrip (row.movie_douban_id.getD "") = ""
  · rw [if_pos hm0] at h; cases h
  · rw [if_neg hm0] at h
    cases hmm : alookup (pyStrip (row.movie_douban_id.getD "")) mm with
    | none => rw [hmm] at h; cases h
    | some movie_id =>
      rw [hmm] at h
      dsimp only at h
      cases hy : pyInt (pyStrip (row.festival_year.getD "")) with
      | none => rw [hy] at h; cases h
      | some fest_year =>
        rw [hy] at h
        dsimp only at h
        cases hf : alookup (pyStrip (row.festival_name.getD ""), fest_year) fm with
        | none => rw [hf] at h; cases h
        | some fest_id =>
          rw [hf] at h
          dsimp only at h
          cases ha : alookup (fest_id, pyStrip (row.award_name.getD ""),
              pyStrip (row.award_type.getD "")) am with
          | none => rw [ha] at h; cases h
          | some award_id =>
            rw [ha] at h
            dsimp only at h
            by_cases hp0 : pyStrip (row.person_douban_id.getD "") = ""
            · rw [if_pos hp0] at h
              cases h
              exact ⟨⟨_, alookup_mem ha⟩, ⟨_, alookup_mem hmm⟩,
                fun pid hpid => by cases hpid⟩
            · rw [if_neg hp0] at h
              cases hpm : alookup (pyStrip (row.person_douban_id.getD "")) pm with
              | none => rw [hpm] at h; cases h
              | some person_id =>
                rw [hpm] at h
                cases h
                exact ⟨⟨_, alookup_mem ha⟩, ⟨_, alookup_mem hmm⟩,
                  fun pid hpid => by cases hpid; exact ⟨_, alookup_mem hpm⟩⟩

/-! ## etl/05 staging fact builders (ratings and watch records) -/

/-- One `movie_ratings.jsonl` observation (`rating` is the JSON value as an
integer, `none` when absent or not convertible by `int(...)`). -/
structure RatingObs where
  movie_douban_id : Option String
  user_hash : Option String
  rating : Option Int
  created_at : Option String
  review : Option String
deriving DecidableEq, Repr

/-- One staging `movie_ratings.csv` row (without the running `id`). -/
structure RatingStageRow where
  movie_id : Int
  user_id : Int
  rating : Int
  created_at : String
  review : String
deriving DecidableEq, Repr

/-- The emit decision of `build_movie_ratings` of etl/05 for one observation. -/
def rating_stage_emit (movie_id_map user_id_map : List (String × Int))
    (rec : RatingObs) : Option RatingStageRow :=
  if pyStrip (rec.movie_douban_id.getD "") = "" then none
  else
    match alookup (pyStrip (rec.movie_douban_id.getD "")) movie_id_map with
    | none => none
    | some movie_id =>
      if pyStrip (rec.user_hash.getD "") = "" then none
      else
        match alookup (pyStrip (rec.user_hash.getD "")) user_id_map with
        | none => none
        | some user_id =>
          match rec.rating with
          | none => none
          | some rating =>
            some ⟨movie_id, user_id, rating, pyStrip (rec.created_at.getD ""),
              ⟨(pyJoinSplit (rec.review.getD "")).data.take 1000⟩⟩

/-- `build_movie_ratings` of etl/05 (rows with their running `id`). -/
def build_movie_ratings (movie_id_map user_id_map : List (String × Int))
    (recs : List RatingObs) : List (Nat × RatingStageRow) :=
  enumFrom 1 (recs.filterMap (rating_stage_emit movie_id_map user_id_map))

theorem rating_stage_emit_ok {mm um : List (String × Int)} {rec : RatingObs}
    {r : RatingStageRow} (h : rating_stage_emit mm um rec = some r) :
    (∃ k, (k, r.movie_id) ∈ mm) ∧ ∃ k, (k, r.user_id) ∈ um := by
  unfold rating_stage_emit at h
  by_cases hm0 : pyStrip (rec.movie_douban_id.getD "") = ""
  · rw [if_pos hm0] at h; cases h
  · rw [if_neg hm0] at h
    cases hmm : alookup (pyStrip (rec.movie_douban_id.getD "")) mm with
    | none => rw [hmm] at h; cases h
    | some movie_id =>
      rw [hmm] at h
      dsimp only at h
      by_cases hu0 : pyStrip (rec.user_hash.getD "") = ""
      · rw [if_pos hu0] at h; cases h
      · rw [if_neg hu0] at h
        cases hum : alookup (pyStrip (rec.user_hash.getD "")) um with
        | none => rw [hum] at h; cases h
        | some user_id =>
          rw [hum] at h
          dsimp only at h
          cases hr : rec.rating with
          | none => rw [hr] at h; cases h
          | some rating =>
            rw [hr] at h
            cases h
            exact ⟨⟨_, alookup_mem hmm⟩, ⟨_, alookup_mem hum⟩⟩

/-- One `movie_watch_records.jsonl` observation (`star` is the Python
truthiness `bool(rec.get("star"))` of the raw JSON value). -/
structure WatchObs where
  movie_douban_id : Option String
  user_hash : Option String
  status : Option String
  created_at : Option String
  star : Bool
deriving DecidableEq, Repr

/-- One staging `watching_records.csv` row (without the running `id`). -/
structure WatchStageRow where
  movie_id : Int
  user_id : Int
  status : String
  created_at : String
  star : Bool
deriving DecidableEq, Repr

/-- The emit decision of `build_watching_records` of etl/05: an empty status
becomes the `"unknown"` placeholder. -/
def watch_stage_emit (movie_id_map user_id_map : List (String × Int))
    (rec : WatchObs) : Option WatchStageRow :=
  if pyStrip (rec.movie_douban_id.getD "") = "" then none
  else
    match alookup (pyStrip (rec.movie_douban_id.getD "")) movie_id_map with
    | none => none
    | some movie_id =>
      if pyStrip (rec.user_hash.getD "") = "" then none
      else
        match alookup (pyStrip (rec.user_hash.getD "")) user_id_map with
        | none => none
        | some user_id =>
          some ⟨movie_id, user_id,
            (if pyStrip (rec.status.getD "") = "" then "unknown"
              else pyStrip (rec.status.getD "")),
            pyStrip (rec.created_at.getD ""), rec.star⟩

/-- `build_watching_records` of etl/05. -/
def build_watching_records (movie_id_map user_id_map : List (String × Int))
    (recs : List WatchObs) : List (Nat × WatchStageRow) :=
  enumFrom 1 (recs.filterMap (watch_stage_emit movie_id_map user_id_map))

theorem watch_stage_emit_ok {mm um : List (String × Int)} {rec : WatchObs}
    {r : WatchStageRow} (h : watch_stage_emit mm um rec = some r) :
    (∃ k, (k, r.movie_id) ∈ mm) ∧ ∃ k, (k, r.user_id) ∈ um := by
  unfold watch_stage_emit at h
  by_cases hm0 : pyStrip (rec.movie_douban_id.getD "") = ""
  · rw [if_pos hm0] at h; cases h
  · rw [if_neg hm0] at h
    cases hmm : alookup (pyStrip (rec.movie_douban_id.getD "")) mm with
    | none => rw [hmm] at h; cases h
    | some movie_id =>
      rw [hmm] at h
      dsimp only at h
      by_cases hu0 : pyStrip (rec.user_hash.getD "") = ""
      · rw [if_pos hu0] at h; cases h
      · rw [if_neg hu0] at h
        cases hum : alookup (pyStrip (rec.user_hash.getD "")) um with
        | none => rw [hum] at h; cases h
        | some user_id =>
          rw [hum] at h
          cases h
          exact ⟨⟨_, alookup_mem hmm⟩, ⟨_, alookup_mem hum⟩⟩

/-- C5: every surrogate id emitted into a fact or bridge row exists in the
corresponding id-assignment table: crew credits (movie, person, and the final
persisted Position table), cast credits, the three movie bridges, award
records, and the rating / watch-record facts (whose foreign keys are resolved
in etl/05).  Each builder resolves only through the loaded mapping, so no id
outside a mapping's image is ever emitted. -/
theorem c5_referential_integrity :
    (∀ (mm pm : List (String × Int)) (recs : List CrewObj)
        (csv : List (Option String × Option String)),
      ∀ cr ∈ (build_crew_credit mm pm recs (load_positions csv)).1,
        (∃ k, (k, cr.movie_id) ∈ mm) ∧ (∃ k, (k, cr.person_id) ∈ pm) ∧
        ∃ q ∈ (build_crew_credit mm pm recs (load_positions csv)).2.rows,
          q.1 = cr.position_id) ∧
    (∀ (mm pm : List (String × Int)) (recs : List CastObj),
      ∀ c ∈ build_cast_credit mm pm recs,
        (∃ k, (k, c.movie_id) ∈ mm) ∧ ∃ k, (k, c.person_id) ∈ pm) ∧
    (∀ (mm dm : List (String × Int)) (src : List BridgeSrcRow),
      ∀ p ∈ build_bridge_csv mm dm src,
        (∃ k, (k, p.1) ∈ mm) ∧ ∃ k, (k, p.2) ∈ dm) ∧
    (∀ (mm pm : List (String × Int)) (fm : List ((String × Int) × Int))
        (am : List ((Int × String × String) × Int)) (rows : List AwardSrcRow),
      ∀ r ∈ build_award_records mm pm fm am rows,
        (∃ k, (k, r.award_id) ∈ am) ∧ (∃ k, (k, r.movie_id) ∈ mm) ∧
        ∀ pid, r.person_id = some pid → ∃ k, (k, pid) ∈ pm) ∧
    (∀ (mm um : List (String × Int)) (recs : List RatingObs),
      ∀ p ∈ build_movie_ratings mm um recs,
        (∃ k, (k, p.2.movie_id) ∈ mm) ∧ ∃ k, (k, p.2.user_id) ∈ um) ∧
    (∀ (mm um : List (String × Int)) (recs : List WatchObs),
      ∀ p ∈ build_watching_records mm um recs,
        (∃ k, (k, p.2.movie_id) ∈ mm) ∧ ∃ k, (k, p.2.user_id) ∈ um) := by
  refine ⟨?_, ?_, ?_, ?_, ?_, ?_⟩
  · intro mm pm recs csv cr hcr
    obtain ⟨h1, h2, h3⟩ := build_crew_credit_ok mm pm recs ([], load_positions csv)
      (load_positions_coherent csv) (by intro c hc; cases hc) cr hcr
    exact ⟨h1, h2, h3⟩
  · intro mm pm recs c hc
    rcases List.mem_filterMap.1 hc with ⟨rec, _, hrec⟩
    exact cast_emit_ok hrec
  · intro mm dm src p hp
    exact build_bridge_csv_ok mm dm src p hp
  · intro mm pm fm am rows r hr
    rcases List.mem_filterMap.1 hr with ⟨row, _, hrow⟩
    revert hrow
    cases hstep : award_step mm pm fm am row with
    | written r' =>
      intro hrow
      cases hrow
      exact award_step_written hstep
    | skippedNoMovie => intro hrow; cases hrow
    | skippedNoFestival => intro hrow; cases hrow
    | skippedNoAward => intro hrow; cases hrow
    | skippedNoPerson => intro hrow; cases hrow
  · intro mm um recs p hp
    rcases List.mem_filterMap.1 (mem_enumFrom hp).2 with ⟨rec, _, hrec⟩
    exact rating_stage_emit_ok hrec
  · intro mm um recs p hp
    rcases List.mem_filterMap.1 (mem_enumFrom hp).2 with ⟨rec, _, hrec⟩
    exact watch_stage_emit_ok hrec

/-- Witness for `c5_referential_integrity` on a one-record cast stream. -/
theorem c5_referential_integrity_witness :
    (∃ k, (k, (1 : Int)) ∈ [("3", (1 : Int))]) ∧
    ∃ k, (k, (2 : Int)) ∈ [("4", (2 : Int))] :=
  c5_referential_integrity.2.1 [("3", 1)] [("4", 2)]
    [⟨some "3", some "4", some "演员 Actor", some 1⟩]
    ⟨1, 2, "演员 Actor", true⟩ (by decide)

/-- C6: an award record naming a person that the person id table cannot
resolve is dropped entirely (counted as `skippedNoPerson`, no output row) even
when movie, festival and award all resolve; a record with an empty person
field and resolvable movie / festival / award references is published with a
NULL person reference. -/
theorem c6_award_person_policy
    (mm pm : List (String × Int)) (fm : List ((String × Int) × Int))
    (am : List ((Int × String × String) × Int)) :
    (∀ (row : AwardSrcRow) (movie_id fest_year fest_id award_id : Int),
      pyStrip (row.movie_douban_id.getD "") ≠ "" →
      alookup (pyStrip (row.movie_douban_id.getD "")) mm = some movie_id →
      pyInt (pyStrip (row.festival_year.getD "")) = some fest_year →
      alookup (pyStrip (row.festival_name.getD ""), fest_year) fm = some fest_id →
      alookup (fest_id, pyStrip (row.award_name.getD ""),
        pyStrip (row.award_type.getD "")) am = some award_id →
      pyStrip (row.person_douban_id.getD "") ≠ "" →
      alookup (pyStrip (row.person_douban_id.getD "")) pm = none →
      award_step mm pm fm am row = .skippedNoPerson ∧
      build_award_records mm pm fm am [row] = []) ∧
    (∀ (row : AwardSrcRow) (movie_id fest_year fest_id award_id : Int),
      pyStrip (row.movie_douban_id.getD "") ≠ "" →
      alookup (pyStrip (row.movie_douban_id.getD "")) mm = some movie_id →
      pyInt (pyStrip (row.festival_year.getD "")) = some fest_year →
      alookup (pyStrip (row.festival_name.getD ""), fest_year) fm = some fest_id →
      alookup (fest_id, pyStrip (row.award_name.getD ""),
        pyStrip (row.award_type.getD "")) am = some award_id →
      pyStrip (row.person_douban_id.getD "") = "" →
      ∃ r : AwardOutRow, award_step mm pm fm am row = .written r ∧
        r.person_id = none ∧ r.award_id = award_id ∧ r.movie_id = movie_id ∧
        build_award_records mm pm fm am [row] = [r]) := by
  constructor
  · intro row movie_id fest_year fest_id award_id hm0 hmm hy hf ha hp0 hpm
    have hstep : award_step mm pm fm am row = .skippedNoPerson := by
      unfold award_step
      rw [if_neg hm0, hmm]
      dsimp only
      rw [hy]
      dsimp only
      rw [hf]
      dsimp only
      rw [ha]
      dsimp only
      rw [if_neg hp0, hpm]
    refine ⟨hstep, ?_⟩
    unfold build_award_records
    rw [List.filterMap_cons, hstep]
    rfl
  · intro row movie_id fest_year fest_id award_id hm0 hmm hy hf ha hp0
    have hstep : award_step mm pm fm am row =
        .written ⟨award_id, movie_id, none,
          award_is_winner (pyStrip (row.is_winner.getD "")),
          clean_award_desc (pyStrip (row.extra_desc.getD ""))⟩ := by
      unfold award_step
      rw [if_neg hm0, hmm]
      dsimp only
      rw [hy]
      dsimp only
      rw [hf]
      dsimp only
      rw [ha]
      dsimp only
      rw [if_pos hp0]
    refine ⟨_, hstep, rfl, rfl, rfl, ?_⟩
    unfold build_award_records
    rw [List.filterMap_cons, hstep]
    rfl

/-- Witness for `c6_award_person_policy`: a resolvable award record naming an
unknown person is dropped; the same record with no person is published with a
NULL person. -/
theorem c6_award_person_policy_witness :
    (award_step [("m1", 10)] [("p1", 20)] [(("Cannes", 2020), 5)]
        [((5, "Best", "person"), 7)]
        ⟨some "Cannes", some "2020", some "Best", some "person", some "1",
          some "m1", some "p2", none, none⟩ = .skippedNoPerson ∧
      build_award_records [("m1", 10)] [("p1", 20)] [(("Cannes", 2020), 5)]
        [((5, "Best", "person"), 7)]
        [⟨some "Cannes", some "2020", some "Best", some "person", some "1",
          some "m1", some "p2", none, none⟩] = []) ∧
    ∃ r : AwardOutRow,
      award_step [("m1", 10)] [("p1", 20)] [(("Cannes", 2020), 5)]
        [((5, "Best", "person"), 7)]
        ⟨some "Cannes", some "2020", some "Best", some "person", some "1",
          some "m1", none, none, none⟩ = .written r ∧
      r.person_id = none ∧ r.award_id = 7 ∧ r.movie_id = 10 ∧
      build_award_records [("m1", 10)] [("p1", 20)] [(("Cannes", 2020), 5)]
        [((5, "Best", "person"), 7)]
        [⟨some "Cannes", some "2020", some "Best", some "person", some "1",
          some "m1", none, none, none⟩] = [r] :=
  ⟨(c6_award_person_policy [("m1", 10)] [("p1", 20)] [(("Cannes", 2020), 5)]
      [((5, "Best", "person"), 7)]).1
    ⟨some "Cannes", some "2020", some "Best", some "person", some "1",
      some "m1", some "p2", none, none⟩ 10 2020 5 7
    (by decide) (by decide) (by decide) (by decide) (by decide) (by decide)
    (by decide),
   (c6_award_person_policy [("m1", 10)] [("p1", 20)] [(("Cannes", 2020), 5)]
      [((5, "Best", "person"), 7)]).2
    ⟨some "Cannes", some "2020", some "Best", some "person", some "1",
      some "m1", none, none, none⟩ 10 2020 5 7
    (by decide) (by decide) (by decide) (by decide) (by decide) (by decide)⟩

/-! ## C7: two-run determinism of the surrogate-key assigners -/

/-- C7, amended: rerunning the Entity Collector + Surrogate Key Assigner on
identical input reproduces the surrogate-key assignment for every entity type
except the Award dictionary.  The Movie and Person maps and the Genre,
Language and Region dictionaries depend only on the *set* of collected natural
keys — stated as invariance under permutation of the collected representation,
which covers any iteration order of the collecting container — and the
Festival dictionary likewise whenever no collected year equals the missing-year
sentinel 999999 (the only way two distinct festival keys can tie under its
sort key; moreover the festival collection is an insertion-ordered dict, so
identical input always reproduces it).  The Award dictionary is excluded: its
sort key omits the award type, see the counterexample. -/
theorem c7_determinism_amended :
    (∀ (b₁ b₂ : List MovieBasicObj) (s₁ s₂ : List MovieSummaryObj),
      List.Perm ((collect_movies b₁ s₁).map Prod.fst)
        ((collect_movies b₂ s₂).map Prod.fst) →
      write_movie_id_map (collect_movies b₁ s₁) =
        write_movie_id_map (collect_movies b₂ s₂)) ∧
    (∀ (seed₁ seed₂ : List (String × String)) (d₁ d₂ : List PersonDetailObj),
      List.Perm ((collect_persons seed₁ d₁).map Prod.fst)
        ((collect_persons seed₂ d₂).map Prod.fst) →
      write_person_id_map (collect_persons seed₁ d₁) =
        write_person_id_map (collect_persons seed₂ d₂)) ∧
    (∀ r₁ r₂ : List (List (Option String)),
      List.Perm (collect_genres r₁) (collect_genres r₂) →
      write_genre_dict (collect_genres r₁) = write_genre_dict (collect_genres r₂)) ∧
    (∀ l₁ l₂ : List (List (Option String)),
      List.Perm (collect_languages l₁) (collect_languages l₂) →
      write_language_dict (collect_languages l₁) =
        write_language_dict (collect_languages l₂)) ∧
    (∀ (mr₁ mr₂ : List (List (Option String))) (pr₁ pr₂ : List (Option String)),
      List.Perm (collect_regions mr₁ pr₁) (collect_regions mr₂ pr₂) →
      write_region_dict (collect_regions mr₁ pr₁) =
        write_region_dict (collect_regions mr₂ pr₂)) ∧
    (∀ ks₁ ks₂ : List (String × Option Int),
      List.Perm ks₁ ks₂ → (∀ k ∈ ks₁, k.2 ≠ some (999999 : Int)) →
      write_festival_dict ks₁ = write_festival_dict ks₂) := by
  refine ⟨?_, ?_, ?_, ?_, ?_, ?_⟩
  · intro b₁ b₂ s₁ s₂ hm
    unfold write_movie_id_map
    rw [sortedKeys_eq_of_perm hm]
  · intro seed₁ seed₂ d₁ d₂ hp
    unfold write_person_id_map
    rw [sortedKeys_eq_of_perm hp]
  · intro r₁ r₂ hg
    unfold write_genre_dict
    rw [sortedKeys_eq_of_perm hg]
  · intro l₁ l₂ hl
    unfold write_language_dict
    rw [sortedKeys_eq_of_perm hl]
  · intro mr₁ mr₂ pr₁ pr₂ hr
    unfold write_region_dict
    rw [sortedKeys_eq_of_perm hr]
  · intro ks₁ ks₂ hp hno
    unfold write_festival_dict
    rw [festSort_eq_of_perm hp hno]

/-- Witness for `c7_determinism_amended`: two runs that present the same
genres, and the same festival keys, in different orders. -/
theorem c7_determinism_amended_witness :
    write_genre_dict (collect_genres [[some "剧情", some "动作"]]) =
      write_genre_dict (collect_genres [[some "动作"], [some "剧情"]]) ∧
    write_festival_dict [("FestA", some 2000), ("FestB", none)] =
      write_festival_dict [("FestB", none), ("FestA", some 2000)] :=
  ⟨c7_determinism_amended.2.2.1 [[some "剧情", some "动作"]]
      [[some "动作"], [some "剧情"]] (by decide),
    c7_determinism_amended.2.2.2.2.2 [("FestA", some 2000), ("FestB", none)]
      [("FestB", none), ("FestA", some 2000)] (by decide) (by decide)⟩
